import Mathlib

/-!
# TallyGO — verification of the offline-first reconciliation layer

A shallow embedding of the data model and the reconciliation logic of the
TallyGO expense/goal tracker, together with theorems settling the spec's
claims about it.

Modelling conventions:
* ISO timestamp strings are modelled as natural numbers (milliseconds);
  `new Date(s).getTime()` is monotone on ISO strings, so timestamp
  comparisons are preserved.
* Calendar-day strings (`YYYY-MM-DD`) used as completion/report keys are
  modelled as natural epoch-day indices (days since 1970-01-01, a Thursday);
  the string form and the index are in order-preserving bijection.
* JS `number` prices are modelled as rationals.
* AsyncStorage is a record of four optional collections plus an optional
  expiry stamp (`None` = key absent).  Fallibility of the persistence layer
  and of the network is modelled by boolean fault flags in an environment
  record; a thrown JS exception becomes `Except.error`.
-/

/-- JS `number` values (prices, rates) as rationals. -/
abbrev JSNum := Rat

/-- An expense record (`Expense` in `types`). Optional fields are `Option`;
an absent key is `none`. -/
structure Expense where
  id : String
  content : String
  price : JSNum
  date : String
  created_at : Nat
  user_id : Option String := none
  updated_at : Option Nat := none
  synced : Option Bool := none
  deriving Repr, DecidableEq

/-- A weekly goal template (`GoalTemplate` in `types`). -/
structure GoalTemplate where
  id : String
  user_id : String
  title : String
  day_of_week : Nat
  order_index : Nat
  is_active : Bool
  created_at : Nat
  updated_at : Nat
  deriving Repr, DecidableEq

/-- A daily goal completion (`DailyGoalCompletion` in `types`);
`completion_date` is an epoch-day index. -/
structure DailyGoalCompletion where
  id : String
  user_id : String
  goal_template_id : String
  completion_date : Nat
  is_completed : Bool
  completed_at : Option Nat
  created_at : Nat
  deriving Repr, DecidableEq

/-- Per-goal statistics inside a weekly report. -/
structure GoalStat where
  template_id : String
  title : String
  completions : Nat
  total_days : Nat
  completion_rate : JSNum
  deriving Repr, DecidableEq

/-- The `report_data` payload of a weekly report. -/
structure ReportData where
  goals : List GoalStat
  overall_completion_rate : JSNum
  deriving Repr, DecidableEq

/-- A weekly report (`WeeklyReport` in `types`). -/
structure WeeklyReport where
  id : String
  user_id : String
  week_start_date : Nat
  report_data : ReportData
  generated_at : Nat
  deriving Repr, DecidableEq

/-- The live sync status signal (`SyncStatus` in `types`). -/
structure SyncStatus where
  last_sync : Option Nat := none
  pending_changes : Nat := 0
  sync_in_progress : Bool := false
  error : Option String := none
  deriving Repr, DecidableEq

/-- An app user (`User` in `types`), restricted to the fields the
reconciliation layer reads. -/
structure User where
  id : String
  isGuest : Bool
  deriving Repr, DecidableEq

/-- The AsyncStorage contents backing `LocalStorageService`: the four
collections plus the expiry stamp, each `none` when the key was never
written (or has been removed). -/
structure LocalStore where
  expenses : Option (List Expense) := none
  templates : Option (List GoalTemplate) := none
  completions : Option (List DailyGoalCompletion) := none
  reports : Option (List WeeklyReport) := none
  expiry : Option Nat := none
  deriving Repr, DecidableEq

/-- The empty store (all five AsyncStorage keys absent). -/
def LocalStore.empty : LocalStore := {}

/-- Ambient execution environment: the current clock, the ids the two id
generators will produce next, and fault flags.  `failRead` makes
`AsyncStorage.getItem` throw, `failWrite` makes `setItem`/`multiRemove`
throw, `remoteFails` makes every Supabase network call reject. -/
structure Env where
  now : Nat
  freshId : String := "local-id"
  remoteId : String := "server-id"
  failRead : Bool := false
  failWrite : Bool := false
  remoteFails : Bool := false
  deriving Repr

/-- A partial expense (`Partial<Expense>` / update payload): every field
optional, `none` meaning the key is absent from the JS object. -/
structure ExpenseUpdate where
  content : Option String := none
  price : Option JSNum := none
  date : Option String := none
  user_id : Option String := none
  updated_at : Option Nat := none
  synced : Option Bool := none
  deriving Repr, DecidableEq

/-- JS object spread `{...e, ...u}`: keys present in `u` override `e`. -/
def mergeExpense (e : Expense) (u : ExpenseUpdate) : Expense :=
  { e with
    content := u.content.getD e.content
    price := u.price.getD e.price
    date := u.date.getD e.date
    user_id := (u.user_id).orElse fun _ => e.user_id
    updated_at := (u.updated_at).orElse fun _ => e.updated_at
    synced := (u.synced).orElse fun _ => e.synced }

/-- Input to `addExpense` (`Omit<Expense, 'id' | 'created_at'>`): the
caller-supplied fields; `id` and `created_at` are generated. -/
structure ExpenseInput where
  content : String
  price : JSNum
  date : String
  user_id : Option String := none
  updated_at : Option Nat := none
  synced : Option Bool := none
  deriving Repr, DecidableEq

/-- Input to `updateGoalCompletion` (`Omit<DailyGoalCompletion, 'id' |
'created_at'>`). -/
structure CompletionInput where
  user_id : String
  goal_template_id : String
  completion_date : Nat
  is_completed : Bool
  completed_at : Option Nat
  deriving Repr, DecidableEq

/-- Replace the element at the first position satisfying `p` (mirrors
`findIndex` followed by an indexed assignment). -/
def updateFirst (p : α → Bool) (f : α → α) : List α → List α
  | [] => []
  | x :: xs => if p x then f x :: xs else x :: updateFirst p f xs

namespace LocalStorageService

/-- Guest data lifetime: 30 days in milliseconds (`EXPIRY_DAYS`). -/
def expiryDurationMs : Nat := 30 * 24 * 60 * 60 * 1000

/-- `LocalStorageService.isDataExpired`: true iff the stored expiry stamp
exists and lies strictly in the past.  A read failure is caught and
reported as "not expired". -/
def isDataExpired (env : Env) (st : LocalStore) : Bool :=
  if env.failRead then false
  else
    match st.expiry with
    | none => false
    | some e => decide (e < env.now)

/-- `LocalStorageService.clearAllData`: remove the four collections and the
expiry stamp; a storage failure is caught and swallowed. -/
def clearAllData (env : Env) (st : LocalStore) : LocalStore :=
  if env.failWrite then st else LocalStore.empty

/-- `LocalStorageService.setExpiryDate`: stamp `now + 30 days`; a storage
failure is caught and swallowed. -/
def setExpiryDate (env : Env) (st : LocalStore) : LocalStore :=
  if env.failWrite then st
  else { st with expiry := some (env.now + expiryDurationMs) }

/-- Shared tail of every `saveXxx`: after a successful `setItem`, stamp the
expiry date if no stamp exists yet.  Returns `none` when the expiry lookup
itself threw (`failRead`), which the expense save path swallows and the
goal-data save paths rethrow. -/
def stampAfterSave (env : Env) (st : LocalStore) : Option LocalStore :=
  if env.failRead then none
  else some (if st.expiry.isSome then st else setExpiryDate env st)

/-- `LocalStorageService.getExpenses`: wipe-and-empty when expired,
otherwise the stored list; any failure is caught and yields `[]`.
Returns the result together with the possibly-wiped store. -/
def getExpenses (env : Env) (st : LocalStore) : List Expense × LocalStore :=
  if isDataExpired env st then ([], clearAllData env st)
  else if env.failRead then ([], st)
  else (st.expenses.getD [], st)

/-- `LocalStorageService.saveExpenses`: replace the expense collection and
stamp the expiry if absent.  Unlike the goal-data saves, every failure is
caught and swallowed (the `catch` only logs), so this never throws. -/
def saveExpenses (env : Env) (st : LocalStore) (xs : List Expense) : LocalStore :=
  if env.failWrite then st
  else
    let st1 := { st with expenses := some xs }
    (stampAfterSave env st1).getD st1

/-- `LocalStorageService.addExpense`: read, append a record with generated
id and `created_at`, save; its callees never throw, so neither does it. -/
def addExpense (env : Env) (st : LocalStore) (e : ExpenseInput) :
    Expense × LocalStore :=
  let (xs, st1) := getExpenses env st
  let newExpense : Expense :=
    { id := env.freshId
      content := e.content
      price := e.price
      date := e.date
      created_at := env.now
      user_id := e.user_id
      updated_at := e.updated_at
      synced := e.synced }
  (newExpense, saveExpenses env st1 (xs ++ [newExpense]))

/-- `LocalStorageService.updateExpense`: merge `updates` into the first
record with the given id, always resetting `updated_at` to now; throws
`Expense not found` when the id is absent. -/
def updateExpense (env : Env) (st : LocalStore) (id : String)
    (updates : ExpenseUpdate) : LocalStore × Except String Expense :=
  let (xs, st1) := getExpenses env st
  match xs.find? (fun e => e.id == id) with
  | none => (st1, .error "Expense not found")
  | some e =>
      let updated := { mergeExpense e updates with updated_at := some env.now }
      let xs1 := updateFirst (fun e => e.id == id) (fun _ => updated) xs
      (saveExpenses env st1 xs1, .ok updated)

/-- `LocalStorageService.deleteExpense`: filter the id out and save; its
callees never throw, so the `catch`/rethrow path is unreachable and the
operation always succeeds. -/
def deleteExpense (env : Env) (st : LocalStore) (id : String) :
    LocalStore × Except String Unit :=
  let (xs, st1) := getExpenses env st
  (saveExpenses env st1 (xs.filter fun e => e.id != id), .ok ())

/-- `LocalStorageService.getGoalTemplates` (same shape as `getExpenses`). -/
def getGoalTemplates (env : Env) (st : LocalStore) :
    List GoalTemplate × LocalStore :=
  if isDataExpired env st then ([], clearAllData env st)
  else if env.failRead then ([], st)
  else (st.templates.getD [], st)

/-- `LocalStorageService.saveGoalTemplates`: unlike `saveExpenses`, the
`catch` rethrows, so a persistence failure surfaces as an error (the state
still reflects a write that succeeded before the expiry lookup threw). -/
def saveGoalTemplates (env : Env) (st : LocalStore) (ts : List GoalTemplate) :
    LocalStore × Except String Unit :=
  if env.failWrite then (st, .error "storage failure")
  else
    let st1 := { st with templates := some ts }
    match stampAfterSave env st1 with
    | none => (st1, .error "storage failure")
    | some st2 => (st2, .ok ())

/-- `LocalStorageService.addGoalTemplate`: read, append a generated record,
save; a save failure is rethrown to the caller. -/
def addGoalTemplate (env : Env) (st : LocalStore)
    (t : GoalTemplate) : LocalStore × Except String GoalTemplate :=
  let (ts, st1) := getGoalTemplates env st
  let newTemplate : GoalTemplate :=
    { t with id := env.freshId, created_at := env.now, updated_at := env.now }
  match saveGoalTemplates env st1 (ts ++ [newTemplate]) with
  | (st2, .ok _) => (st2, .ok newTemplate)
  | (st2, .error m) => (st2, .error m)

/-- `LocalStorageService.getDailyCompletions` without a date filter. -/
def getDailyCompletions (env : Env) (st : LocalStore) :
    List DailyGoalCompletion × LocalStore :=
  if isDataExpired env st then ([], clearAllData env st)
  else if env.failRead then ([], st)
  else (st.completions.getD [], st)

/-- `LocalStorageService.saveDailyCompletions` (rethrows on failure, like
`saveGoalTemplates`). -/
def saveDailyCompletions (env : Env) (st : LocalStore)
    (cs : List DailyGoalCompletion) : LocalStore × Except String Unit :=
  if env.failWrite then (st, .error "storage failure")
  else
    let st1 := { st with completions := some cs }
    match stampAfterSave env st1 with
    | none => (st1, .error "storage failure")
    | some st2 => (st2, .ok ())

/-- `LocalStorageService.updateGoalCompletion`: upsert keyed on
`(goal_template_id, completion_date)` — merge into the existing record if
one exists, otherwise append a generated record. -/
def updateGoalCompletion (env : Env) (st : LocalStore) (c : CompletionInput) :
    LocalStore × Except String DailyGoalCompletion :=
  let (cs, st1) := getDailyCompletions env st
  let sameKey := fun (x : DailyGoalCompletion) =>
    x.goal_template_id == c.goal_template_id &&
      x.completion_date == c.completion_date
  match cs.find? sameKey with
  | some old =>
      let updated : DailyGoalCompletion :=
        { old with
          user_id := c.user_id
          goal_template_id := c.goal_template_id
          completion_date := c.completion_date
          is_completed := c.is_completed
          completed_at := c.completed_at }
      let cs1 := updateFirst sameKey (fun _ => updated) cs
      match saveDailyCompletions env st1 cs1 with
      | (st2, .ok _) => (st2, .ok updated)
      | (st2, .error m) => (st2, .error m)
  | none =>
      let created : DailyGoalCompletion :=
        { id := env.freshId
          user_id := c.user_id
          goal_template_id := c.goal_template_id
          completion_date := c.completion_date
          is_completed := c.is_completed
          completed_at := c.completed_at
          created_at := env.now }
      match saveDailyCompletions env st1 (cs ++ [created]) with
      | (st2, .ok _) => (st2, .ok created)
      | (st2, .error m) => (st2, .error m)

/-- `LocalStorageService.getWeeklyReports` (same shape as `getExpenses`). -/
def getWeeklyReports (env : Env) (st : LocalStore) :
    List WeeklyReport × LocalStore :=
  if isDataExpired env st then ([], clearAllData env st)
  else if env.failRead then ([], st)
  else (st.reports.getD [], st)

/-- `LocalStorageService.getExpiryInfo`: expiry stamp read back (display
projection; the days-remaining rendering is omitted). -/
def getExpiryInfo (env : Env) (st : LocalStore) : Option Nat :=
  if env.failRead then none else st.expiry

/-- The snapshot returned by `exportAllData`. -/
structure ExportData where
  expenses : List Expense
  goalTemplates : List GoalTemplate
  dailyCompletions : List DailyGoalCompletion
  weeklyReports : List WeeklyReport
  expiryDate : Option Nat
  deriving Repr, DecidableEq

/-- `LocalStorageService.exportAllData`: read all four collections (each
read performing its own expiry check) plus the expiry info. -/
def exportAllData (env : Env) (st : LocalStore) : ExportData × LocalStore :=
  let (es, st1) := getExpenses env st
  let (ts, st2) := getGoalTemplates env st1
  let (cs, st3) := getDailyCompletions env st2
  let (rs, st4) := getWeeklyReports env st3
  (⟨es, ts, cs, rs, getExpiryInfo env st4⟩, st4)

end LocalStorageService

namespace SupabaseService

/-- `SupabaseService.getExpenses`: rows owned by the caller; a network
failure rejects. -/
def getExpenses (env : Env) (user : User) (remote : List Expense) :
    Except String (List Expense) :=
  if env.remoteFails then .error "Network error"
  else .ok (remote.filter fun e => e.user_id == some user.id)

/-- `SupabaseService.addExpense`: insert a row with a server-generated id
and server timestamps, stamped with the caller's id. -/
def addExpense (env : Env) (user : User) (remote : List Expense)
    (e : ExpenseInput) : Except String (Expense × List Expense) :=
  if env.remoteFails then .error "Network error"
  else
    let newExpense : Expense :=
      { id := env.remoteId ++ toString remote.length
        content := e.content
        price := e.price
        date := e.date
        created_at := env.now
        user_id := some user.id
        updated_at := some env.now
        synced := e.synced }
    .ok (newExpense, remote ++ [newExpense])

/-- `SupabaseService.updateExpense`: merge into the caller's row with the
given id, setting `updated_at` to now; `Expense not found or not
authorized` when no row matches. -/
def updateExpense (env : Env) (user : User) (remote : List Expense)
    (id : String) (updates : ExpenseUpdate) :
    Except String (Expense × List Expense) :=
  if env.remoteFails then .error "Network error"
  else
    let isRow := fun (e : Expense) => e.id == id && e.user_id == some user.id
    match remote.find? isRow with
    | none => .error "Expense not found or not authorized"
    | some e =>
        let updated := { mergeExpense e updates with updated_at := some env.now }
        .ok (updated, updateFirst isRow (fun _ => updated) remote)

/-- `SupabaseService.deleteExpense`: delete the caller's rows with the
given id (no error when none match). -/
def deleteExpense (env : Env) (user : User) (remote : List Expense)
    (id : String) : Except String (List Expense) :=
  if env.remoteFails then .error "Network error"
  else .ok (remote.filter fun e => !(e.id == id && e.user_id == some user.id))

/-- `SupabaseService.resolveExpenseConflict`: last-write-wins on
`updated_at`, falling back to `created_at`; a strictly newer local copy is
pushed to the server, otherwise the server copy is returned unchanged. -/
def resolveExpenseConflict (env : Env) (user : User) (remote : List Expense)
    (localExpense serverExpense : Expense) :
    Except String (Expense × List Expense) :=
  let localTime := localExpense.updated_at.getD localExpense.created_at
  let serverTime := serverExpense.updated_at.getD serverExpense.created_at
  if serverTime < localTime then
    updateExpense env user remote localExpense.id
      { content := some localExpense.content
        price := some localExpense.price
        date := some localExpense.date }
  else
    .ok (serverExpense, remote)

/-- `SupabaseService.updateGoalCompletion` client side: stamp the row with
the caller's id and `completed_at := now` iff completed, then upsert.
The conflict resolution itself happens in the database.

Modelled from the spec: the database-side `upsert ... onConflict:
'goal_template_id,completion_date'` replaces the row with the same
composite key if one exists and inserts otherwise (the repository contains
only the client call, not the database engine). -/
def updateGoalCompletion (env : Env) (user : User)
    (table : List DailyGoalCompletion) (c : CompletionInput) :
    Except String (DailyGoalCompletion × List DailyGoalCompletion) :=
  if env.remoteFails then .error "Network error"
  else
    let row : CompletionInput :=
      { c with
        user_id := user.id
        completed_at := if c.is_completed then some env.now else none }
    let sameKey := fun (x : DailyGoalCompletion) =>
      x.goal_template_id == row.goal_template_id &&
        x.completion_date == row.completion_date
    match table.find? sameKey with
    | some old =>
        let updated : DailyGoalCompletion :=
          { old with
            user_id := row.user_id
            is_completed := row.is_completed
            completed_at := row.completed_at }
        .ok (updated, updateFirst sameKey (fun _ => updated) table)
    | none =>
        let created : DailyGoalCompletion :=
          { id := env.remoteId
            user_id := row.user_id
            goal_template_id := row.goal_template_id
            completion_date := row.completion_date
            is_completed := row.is_completed
            completed_at := row.completed_at
            created_at := env.now }
        .ok (created, table ++ [created])

end SupabaseService

/-! ## Report generator (`WeeklyReportService` and date utilities)

Epoch day 0 (1970-01-01) was a Thursday; JS `getDay()` returns 0 for
Sunday, and `weeklyReportService` maps 0 to 7, giving ISO weekday
numbering (Monday = 1 .. Sunday = 7). -/

/-- `checkDate.getDay() === 0 ? 7 : checkDate.getDay()` on an epoch-day
index: ISO weekday, Monday = 1 .. Sunday = 7. -/
def isoWeekday (day : Nat) : Nat :=
  let jsDay := (day + 4) % 7
  if jsDay == 0 then 7 else jsDay

/-- Modelled from the spec: `calculateCompletionRate` lives in
`src/utils/helpers.ts`, which is absent from the repository snapshot; the
spec defines it as `completions / total_days` with `0` when `total_days`
is `0` (guarding division by zero). -/
def calculateCompletionRate (completions totalDays : Nat) : JSNum :=
  if totalDays == 0 then 0 else (completions : JSNum) / (totalDays : JSNum)

namespace WeeklyReportService

/-- The seven day indices of the week starting at `weekStart`. -/
def weekDays (weekStart : Nat) : List Nat :=
  (List.range 7).map fun i => weekStart + i

/-- `WeeklyReportService.calculateGoalStats`: over the 7 days of the week,
count the days matching the template's `day_of_week` and, among those, the
days holding a completed completion record for the template. -/
def calculateGoalStats (template : GoalTemplate) (weekStart : Nat)
    (completions : List DailyGoalCompletion) : GoalStat :=
  let matchingDays := (weekDays weekStart).filter fun d =>
    template.day_of_week == isoWeekday d
  let completedDays := matchingDays.filter fun d =>
    completions.any fun c =>
      c.goal_template_id == template.id && c.completion_date == d &&
        c.is_completed
  { template_id := template.id
    title := template.title
    completions := completedDays.length
    total_days := matchingDays.length
    completion_rate := calculateCompletionRate completedDays.length matchingDays.length }

/-- `WeeklyReportService.calculateOverallCompletionRate`: sum completions
and possible days across goals, then divide with the same zero guard. -/
def calculateOverallCompletionRate (goalStats : List GoalStat) : JSNum :=
  let totalPossible := (goalStats.map (·.total_days)).sum
  let totalCompleted := (goalStats.map (·.completions)).sum
  calculateCompletionRate totalCompleted totalPossible

/-- `WeeklyReportService.generateReportData`: per-goal stats for the active
templates plus the overall rate. -/
def generateReportData (goalTemplates : List GoalTemplate)
    (completions : List DailyGoalCompletion) (weekStart : Nat) : ReportData :=
  let activeTemplates := goalTemplates.filter (·.is_active)
  let goalStats := activeTemplates.map fun t =>
    calculateGoalStats t weekStart completions
  { goals := goalStats
    overall_completion_rate := calculateOverallCompletionRate goalStats }

end WeeklyReportService

/-! ## Validation utilities (`utils/validation.ts`) -/

/-- Result of a validation helper. -/
structure ValidationResult where
  isValid : Bool
  errors : List String
  deriving Repr, DecidableEq

/-- JS `String.prototype.trim` on the character list of a string. -/
def jsTrim (s : String) : List Char :=
  ((s.data.dropWhile Char.isWhitespace).reverse.dropWhile Char.isWhitespace).reverse

/-- Decimal value of a digit character. -/
def digitVal (c : Char) : Nat := c.toNat - 48

/-- `^\d{4}-\d{2}-\d{2}$` together with the `Date` round-trip check of
`isValidDateString`: the string denotes a real Gregorian calendar date. -/
def isValidDateString (s : String) : Bool :=
  match s.data with
  | [y1, y2, y3, y4, h1, m1, m2, h2, d1, d2] =>
      [y1, y2, y3, y4, m1, m2, d1, d2].all Char.isDigit &&
        h1 == '-' && h2 == '-' &&
        (let y := ((digitVal y1 * 10 + digitVal y2) * 10 + digitVal y3) * 10 +
            digitVal y4
         let m := digitVal m1 * 10 + digitVal m2
         let d := digitVal d1 * 10 + digitVal d2
         let leap := (y % 4 == 0 && y % 100 != 0) || y % 400 == 0
         let maxDay :=
           if m == 2 then (if leap then 29 else 28)
           else if m == 4 || m == 6 || m == 9 || m == 11 then 30
           else 31
         decide (1 ≤ m) && decide (m ≤ 12) && decide (1 ≤ d) && decide (d ≤ maxDay))
  | _ => false

/-- `validateExpense` from `utils/validation.ts`, applied to a partial
expense object. -/
def validateExpense (e : ExpenseUpdate) : ValidationResult :=
  let contentMissing :=
    match e.content with
    | none => true
    | some s => s == "" || (jsTrim s).length == 0
  let errors :=
    (if contentMissing then ["Content is required"] else []) ++
    (match e.content with
     | some s => if s.data.length > 200 then ["Content must be less than 200 characters"] else []
     | none => []) ++
    (if e.price.isNone then ["Price is required"] else []) ++
    (match e.price with
     | some p => if p < 0 then ["Price must be positive"] else []
     | none => []) ++
    (match e.price with
     | some p => if p > (99999999999 : JSNum) / 100 then ["Price is too large"] else []
     | none => []) ++
    (match e.date with
     | none => ["Date is required"]
     | some s => if s == "" then ["Date is required"] else []) ++
    (match e.date with
     | some s => if s != "" && !isValidDateString s then ["Date must be in YYYY-MM-DD format"] else []
     | none => [])
  { isValid := errors.isEmpty, errors := errors }

/-! ## Sync service (`services/sync.ts`) -/

/-- `'create' | 'update' | 'delete'`. -/
inductive SyncOpType
  | create
  | update
  | delete
  deriving Repr, DecidableEq

/-- The entity tag of a queued operation. -/
inductive SyncEntity
  | expense
  | goal_template
  | goal_completion
  | weekly_report
  deriving Repr, DecidableEq

/-- A queued deferred operation (`SyncOperation` in `types`).  The
source's untyped `data: any` payload carries an expense record; `dataId`
is its `data.id` and `data` its caller-supplied fields. -/
structure SyncOperation where
  id : String
  type : SyncOpType
  entity : SyncEntity
  dataId : String
  data : ExpenseInput
  timestamp : Nat
  retries : Nat
  deriving Repr, DecidableEq

/-- View an expense payload as the update object passed to
`updateExpense(data.id, data)`. -/
def ExpenseInput.toUpdate (e : ExpenseInput) : ExpenseUpdate :=
  { content := some e.content
    price := some e.price
    date := some e.date
    user_id := e.user_id
    updated_at := e.updated_at
    synced := e.synced }

/-- `!!user && !user.isGuest`, the authenticated-identity test used
throughout the hooks. -/
def isAuthUser : Option User → Bool
  | some u => !u.isGuest
  | none => false

namespace SyncService

/-- Whether two copies of an expense differ in the domain fields compared
by `resolveExpenseConflicts` (content, price, date). -/
def expenseDiffers (a b : Expense) : Bool :=
  a.content != b.content || a.price != b.price || a.date != b.date

/-- `SyncService.processExpenseOperation`: dispatch a queued expense
operation to the remote store. -/
def processExpenseOperation (env : Env) (user : User) (remote : List Expense)
    (op : SyncOperation) : List Expense × Except String Unit :=
  match op.type with
  | .create =>
      match SupabaseService.addExpense env user remote op.data with
      | .ok (_, remote1) => (remote1, .ok ())
      | .error m => (remote, .error m)
  | .update =>
      match SupabaseService.updateExpense env user remote op.dataId op.data.toUpdate with
      | .ok (_, remote1) => (remote1, .ok ())
      | .error m => (remote, .error m)
  | .delete =>
      match SupabaseService.deleteExpense env user remote op.dataId with
      | .ok remote1 => (remote1, .ok ())
      | .error m => (remote, .error m)

/-- `SyncService.processOperation`: expense operations hit the remote
store; the goal entities are unimplemented placeholders that only log a
warning (so they count as processed). -/
def processOperation (env : Env) (user : User) (remote : List Expense)
    (op : SyncOperation) : List Expense × Except String Unit :=
  match op.entity with
  | .expense => processExpenseOperation env user remote op
  | _ => (remote, .ok ())

/-- The body of the `processQueue` loop, abstracted over the semantics of
a single attempt (instantiated with `processOperation`).  Returns the
final remote state, the attempted operations in attempt order paired with
their outcome, and the surviving queue.  A successful operation is
dropped; a failing one has `retries` incremented in place and is dropped
exactly when the incremented counter reaches 3 — the source collects
dropped operations in `processedOperations` and filters them out by
object identity, which on a queue of distinct operation objects is the
same as keeping the failed, under-ceiling operations in order. -/
def runQueue (attempt : List Expense → SyncOperation → List Expense × Except String Unit) :
    List Expense → List SyncOperation →
      List Expense × List (SyncOperation × Bool) × List SyncOperation
  | remote, [] => (remote, [], [])
  | remote, op :: rest =>
      let (remote1, res) := attempt remote op
      let (remoteF, outs, surv) := runQueue attempt remote1 rest
      match res with
      | .ok _ => (remoteF, (op, true) :: outs, surv)
      | .error _ =>
          let bumped := { op with retries := op.retries + 1 }
          if 3 ≤ bumped.retries then (remoteF, (op, false) :: outs, surv)
          else (remoteF, (op, false) :: outs, bumped :: surv)

/-- `SyncService.processQueue`: no-op on an empty queue; throws
`User not authenticated for sync` without touching the queue when the
identity is absent or a guest; otherwise drains via `runQueue` and
refreshes the status. -/
def processQueue (env : Env) (user : Option User) (remote : List Expense)
    (queue : List SyncOperation) (status : SyncStatus) :
    (List SyncOperation × List (SyncOperation × Bool) × List Expense × SyncStatus) ×
      Except String Unit :=
  if queue.isEmpty then ((queue, [], remote, status), .ok ())
  else if !isAuthUser user then
    ((queue, [], remote,
      { status with sync_in_progress := false,
                    error := some "User not authenticated for sync" }),
      .error "User not authenticated for sync")
  else
    match user with
    | none => ((queue, [], remote, status), .error "User not authenticated for sync")
    | some u =>
        let (remote1, outs, newQueue) := runQueue (processOperation env u) remote queue
        ((newQueue, outs, remote1,
          { status with pending_changes := newQueue.length,
                        last_sync := some env.now,
                        error := none,
                        sync_in_progress := false }),
          .ok ())

/-- Iterated drain passes: each pass runs `processQueue` under its own
environment and remote state on the queue left by the previous pass. -/
def drainPasses (user : Option User) :
    List (Env × List Expense) → List SyncOperation → List SyncOperation
  | [], q => q
  | p :: ps, q => drainPasses user ps ((processQueue p.1 user p.2 q {}).1.1)

/-- `SyncService.resolveExpenseConflicts`: partition into local-only
(upload), remote-only (download) and conflicting records, then process the
three phases per record, swallowing per-record failures.  For uploads of
optimistic (`temp_`) records the source nulls out the id before the loop,
so the loop's `expense.id?.startsWith('temp_')` cleanup test reads the
nulled id and the temp-record cleanup branch never fires. -/
def resolveExpenseConflicts (env : Env) (user : User) (localSt : LocalStore)
    (remote : List Expense) (localExpenses serverExpenses : List Expense) :
    LocalStore × List Expense :=
  let expensesToUpload : List (Option String × Expense) :=
    localExpenses.filterMap fun le =>
      if serverExpenses.any (fun se => se.id == le.id) then none
      else if le.id.startsWith "temp_" then
        some (none, { le with user_id := some user.id })
      else some (some le.id, le)
  let expensesToDownload : List Expense :=
    serverExpenses.filter fun se => !(localExpenses.any fun le => le.id == se.id)
  let conflictsToResolve : List (Expense × Expense) :=
    localExpenses.filterMap fun le =>
      match serverExpenses.find? (fun se => se.id == le.id) with
      | none => none
      | some se =>
          if !le.id.startsWith "temp_" && expenseDiffers le se then some (le, se)
          else none
  let afterUpload :=
    expensesToUpload.foldl
      (fun (acc : LocalStore × List Expense) entry =>
        let (st, rem) := acc
        match SupabaseService.addExpense env user rem
            { content := entry.2.content, price := entry.2.price,
              date := entry.2.date, user_id := entry.2.user_id } with
        | .error _ => (st, rem)
        | .ok (uploaded, rem1) =>
            if (entry.1.map (·.startsWith "temp_")).getD false then
              let (st1, _) := LocalStorageService.deleteExpense env st ((entry.1).getD "")
              let (_, st2) := LocalStorageService.addExpense env st1
                { content := uploaded.content, price := uploaded.price,
                  date := uploaded.date, user_id := uploaded.user_id,
                  updated_at := uploaded.updated_at, synced := uploaded.synced }
              (st2, rem1)
            else (st, rem1))
      (localSt, remote)
  let afterDownload :=
    expensesToDownload.foldl
      (fun (acc : LocalStore × List Expense) se =>
        let (st, rem) := acc
        let (_, st1) := LocalStorageService.addExpense env st
          { content := se.content, price := se.price, date := se.date,
            user_id := se.user_id, updated_at := se.updated_at,
            synced := some true }
        (st1, rem))
      afterUpload
  conflictsToResolve.foldl
    (fun (acc : LocalStore × List Expense) pair =>
      let (st, rem) := acc
      match SupabaseService.resolveExpenseConflict env user rem pair.1 pair.2 with
      | .error _ => (st, rem)
      | .ok (resolved, rem1) =>
          let (st1, _) := LocalStorageService.updateExpense env st resolved.id
            { content := some resolved.content, price := some resolved.price,
              date := some resolved.date, updated_at := resolved.updated_at,
              synced := some true }
          (st1, rem1))
    afterDownload

/-- `SyncService.syncExpenses`: authenticated-only bulk reconciliation of
the expense collection; reads both stores, reconciles, and refreshes the
sync status (clearing `pending_changes` on success). -/
def syncExpenses (env : Env) (user : Option User) (localSt : LocalStore)
    (remote : List Expense) (status : SyncStatus) :
    (LocalStore × List Expense × SyncStatus) × Except String Unit :=
  let status1 : SyncStatus := { status with sync_in_progress := true, error := none }
  if !isAuthUser user then
    ((localSt, remote,
      { status1 with error := some "User not authenticated for sync",
                     sync_in_progress := false }),
      .error "User not authenticated for sync")
  else
    match user with
    | none =>
        ((localSt, remote, status1), .error "User not authenticated for sync")
    | some u =>
        let (localExpenses, localSt1) := LocalStorageService.getExpenses env localSt
        match SupabaseService.getExpenses env u remote with
        | .error m =>
            ((localSt1, remote,
              { status1 with error := some m, sync_in_progress := false }),
              .error m)
        | .ok serverExpenses =>
            let (localSt2, remote1) :=
              resolveExpenseConflicts env u localSt1 remote localExpenses serverExpenses
            ((localSt2, remote1,
              { status1 with last_sync := some env.now, pending_changes := 0,
                             error := none, sync_in_progress := false }),
              .ok ())

end SyncService

/-! ## Authentication hook (`hooks/useAuth.ts`) -/

/-- React state of `useAuth` relevant to the identity resolver. -/
structure AuthState where
  user : Option User := none
  error : Option String := none
  forceAuthScreen : Bool := false
  deriving Repr, DecidableEq

namespace UseAuth

/-- `createGuestUser`: a fresh anonymous identity. -/
def createGuestUser (env : Env) : User :=
  { id := "guest_" ++ toString env.now, isGuest := true }

/-- `useAuth.signIn`: authenticate against the backend, then clear the
Local Store unconditionally before exposing the authenticated user
(`// Always clear loc data when switching to authenticated`).
`authResult` is the outcome of `supabaseService.signIn`. -/
def signIn (env : Env) (configured : Bool) (authResult : Except String User)
    (st : AuthState) (loc : LocalStore) :
    (AuthState × LocalStore) × Except String Unit :=
  if !configured then
    (({ st with error := some "Authentication service is not available. Please continue as guest." }, loc),
      .error "Authentication service is not available. Please continue as guest.")
  else
    match authResult with
    | .error m => (({ st with error := some m }, loc), .error m)
    | .ok u =>
        let loc1 := LocalStorageService.clearAllData env loc
        (({ st with user := some u, error := none, forceAuthScreen := false }, loc1),
          .ok ())

/-- `useAuth.signUp`: create the account, clear the Local Store, but leave
`user` unset until the confirmation deep link arrives. -/
def signUp (env : Env) (configured : Bool) (authResult : Except String User)
    (st : AuthState) (loc : LocalStore) :
    (AuthState × LocalStore) × Except String Unit :=
  if !configured then
    (({ st with error := some "Authentication service is not available. Please continue as guest." }, loc),
      .error "Authentication service is not available. Please continue as guest.")
  else
    match authResult with
    | .error m => (({ st with error := some m }, loc), .error m)
    | .ok _ =>
        let loc1 := LocalStorageService.clearAllData env loc
        (({ st with error := none, forceAuthScreen := false }, loc1), .ok ())

/-- `useAuth.signOut`: sign out of the backend when authenticated, then
switch to a fresh guest identity.  The Local Store is not touched on any
path; a backend sign-out failure is caught, leaving the user unchanged. -/
def signOut (env : Env) (remoteSignOutFails : Bool) (st : AuthState)
    (loc : LocalStore) : AuthState × LocalStore :=
  let isAuthenticated := isAuthUser st.user
  if isAuthenticated && remoteSignOutFails then
    ({ st with error := some "User signout failed" }, loc)
  else
    ({ st with user := some (createGuestUser env), error := none }, loc)

end UseAuth

/-! ## Expenses hook (`hooks/useExpenses.ts`) -/

/-- React state of `useExpenses`: the in-memory collection, the error
banner and the hook-loc sync status. -/
structure HookState where
  expenses : List Expense := []
  error : Option String := none
  syncStatus : SyncStatus := {}
  deriving Repr, DecidableEq

namespace UseExpenses

/-- `useExpenses.loadExpenses`: authenticated identities read the Remote
Store and fall back to the Local Store (flagging a sync error) on
failure; guests read the Local Store; the result replaces the in-memory
collection wholesale. -/
def loadExpenses (env : Env) (user : Option User) (st : HookState)
    (loc : LocalStore) (remote : List Expense) : HookState × LocalStore :=
  let status1 := { st.syncStatus with sync_in_progress := true }
  if isAuthUser user then
    match user with
    | some u =>
        (match SupabaseService.getExpenses env u remote with
         | .ok xs =>
             ({ expenses := xs
                error := none
                syncStatus := { status1 with
                                last_sync := some env.now
                                error := none
                                sync_in_progress := false } },
               loc)
         | .error _ =>
             let (xs, loc1) := LocalStorageService.getExpenses env loc
             ({ expenses := xs
                error := none
                syncStatus := { status1 with
                                error := some "Failed to sync with server"
                                sync_in_progress := false } },
               loc1))
    | none => (st, loc)
  else
    let (xs, loc1) := LocalStorageService.getExpenses env loc
    ({ expenses := xs
       error := none
       syncStatus := { status1 with sync_in_progress := false } },
      loc1)

/-- `useExpenses.addExpense`: optimistic prepend of a `temp_` record with
`synced: false`; authenticated identities try the Remote Store and on
failure fall back to the Local Store, bumping `pending_changes` and
setting the sync-failure message; the optimistic record is then replaced
by the stored one.  No error escapes on the remote-failure path. -/
def addExpense (env : Env) (user : Option User) (st : HookState)
    (loc : LocalStore) (remote : List Expense) (input : ExpenseInput) :
    (HookState × LocalStore × List Expense) × Except String Expense :=
  let optimistic : Expense :=
    { id := "temp_" ++ toString env.now
      content := input.content
      price := input.price
      date := input.date
      created_at := env.now
      user_id := user.map (·.id)
      synced := some false }
  let expenses1 := optimistic :: st.expenses
  let finish := fun (saved : Expense) (loc1 : LocalStore)
      (remote1 : List Expense) (status : SyncStatus) =>
    (({ expenses := expenses1.map fun e => if e.id == optimistic.id then saved else e
        error := none
        syncStatus := { status with sync_in_progress := false } },
      loc1, remote1), Except.ok saved)
  if isAuthUser user then
    match user with
    | some u =>
        (match SupabaseService.addExpense env u remote
            { content := input.content, price := input.price, date := input.date } with
         | .ok (saved, remote1) =>
             finish saved loc remote1
               { st.syncStatus with last_sync := some env.now, error := none }
         | .error _ =>
             let (saved, loc1) := LocalStorageService.addExpense env loc
               { content := input.content, price := input.price, date := input.date }
             finish saved loc1 remote
               { st.syncStatus with
                 pending_changes := st.syncStatus.pending_changes + 1
                 error := some "Failed to sync with server" })
    | none => (({ st with error := none }, loc, remote), .error "No user context")
  else
    let (saved, loc1) := LocalStorageService.addExpense env loc
      { content := input.content, price := input.price, date := input.date }
    finish saved loc1 remote st.syncStatus

/-- `useExpenses.updateExpense`: optimistic in-place merge; authenticated
identities try the Remote Store and on any remote failure fall back to the
Local Store (bumping `pending_changes`); if the storage layer itself
throws (missing id), the optimistic change is reverted by a full
`loadExpenses` and the error propagates to the caller. -/
def updateExpense (env : Env) (user : Option User) (st : HookState)
    (loc : LocalStore) (remote : List Expense) (id : String)
    (updates : ExpenseUpdate) :
    (HookState × LocalStore × List Expense) × Except String Expense :=
  let expenses1 := st.expenses.map fun e =>
    if e.id == id then { mergeExpense e updates with updated_at := some env.now } else e
  let st1 : HookState := { st with error := none, expenses := expenses1 }
  let finish := fun (updated : Expense) (loc1 : LocalStore)
      (remote1 : List Expense) (status : SyncStatus) =>
    (({ expenses := expenses1.map fun e => if e.id == id then updated else e
        error := none
        syncStatus := { status with sync_in_progress := false } },
      loc1, remote1), Except.ok updated)
  let revert := fun (m : String) (loc1 : LocalStore) (status : SyncStatus) =>
    let (stR, loc2) := loadExpenses env user { st1 with syncStatus := status } loc1 remote
    (({ stR with
        error := some m
        syncStatus := { stR.syncStatus with sync_in_progress := false } },
      loc2, remote), Except.error m)
  if isAuthUser user then
    match user with
    | some u =>
        (match SupabaseService.updateExpense env u remote id updates with
         | .ok (updated, remote1) =>
             finish updated loc remote1
               { st.syncStatus with last_sync := some env.now, error := none }
         | .error _ =>
             match LocalStorageService.updateExpense env loc id updates with
             | (loc1, .ok updated) =>
                 finish updated loc1 remote
                   { st.syncStatus with
                     pending_changes := st.syncStatus.pending_changes + 1,
                     error := some "Failed to sync with server" }
             | (loc1, .error m) =>
                 revert m loc1
                   { st.syncStatus with
                     pending_changes := st.syncStatus.pending_changes + 1,
                     error := some "Failed to sync with server" })
    | none => ((st1, loc, remote), .error "No user context")
  else
    match LocalStorageService.updateExpense env loc id updates with
    | (loc1, .ok updated) => finish updated loc1 remote st.syncStatus
    | (loc1, .error m) => revert m loc1 st.syncStatus

/-- `useExpenses.deleteExpense`: optimistic removal; authenticated
identities try the Remote Store and on failure fall back to the Local
Store (bumping `pending_changes`); the loc delete cannot throw, so the
operation always reports success on the fallback path. -/
def deleteExpense (env : Env) (user : Option User) (st : HookState)
    (loc : LocalStore) (remote : List Expense) (id : String) :
    (HookState × LocalStore × List Expense) × Except String Unit :=
  let expenses1 := st.expenses.filter fun e => e.id != id
  let finish := fun (loc1 : LocalStore) (remote1 : List Expense)
      (status : SyncStatus) =>
    (({ expenses := expenses1, error := none,
        syncStatus := { status with sync_in_progress := false } },
      loc1, remote1), Except.ok ())
  if isAuthUser user then
    match user with
    | some u =>
        (match SupabaseService.deleteExpense env u remote id with
         | .ok remote1 =>
             finish loc remote1
               { st.syncStatus with last_sync := some env.now, error := none }
         | .error _ =>
             let (loc1, _) := LocalStorageService.deleteExpense env loc id
             finish loc1 remote
               { st.syncStatus with
                 pending_changes := st.syncStatus.pending_changes + 1,
                 error := some "Failed to sync with server" })
    | none => (({ st with error := none, expenses := expenses1 }, loc, remote), .error "No user context")
  else
    let (loc1, _) := LocalStorageService.deleteExpense env loc id
    finish loc1 remote st.syncStatus

end UseExpenses

/-! ## Shared lemmas about `updateFirst` -/

theorem countP_updateFirst (p q : α → Bool) (f : α → α)
    (h : ∀ a, p a = true → q (f a) = q a) :
    ∀ l : List α, (updateFirst p f l).countP q = l.countP q := by
  intro l
  induction l with
  | nil => rfl
  | cons x xs ih =>
      by_cases hp : p x
      · simp [updateFirst, hp, List.countP_cons, h x hp]
      · simp [updateFirst, hp, List.countP_cons, ih]

theorem find?_updateFirst_self (p : α → Bool) (b : α) (hb : p b = true) :
    ∀ l : List α, (l.find? p).isSome →
      (updateFirst p (fun _ => b) l).find? p = some b := by
  intro l
  induction l with
  | nil => intro h; simp [List.find?] at h
  | cons x xs ih =>
      intro h
      by_cases hp : p x
      · simp only [updateFirst, hp, if_true]
        rw [List.find?_cons_of_pos _ hb]
      · simp only [updateFirst, hp, if_false, Bool.false_eq_true]
        rw [List.find?_cons_of_neg _ (by simpa using hp)]
        apply ih
        rwa [List.find?_cons_of_neg _ (by simpa using hp)] at h

theorem updateFirst_self (p : α → Bool) :
    ∀ l : List α, ∀ a, l.find? p = some a →
      updateFirst p (fun _ => a) l = l := by
  intro l
  induction l with
  | nil => intro a h; simp [List.find?] at h
  | cons x xs ih =>
      intro a h
      by_cases hp : p x
      · rw [List.find?_cons_of_pos _ (by simpa using hp)] at h
        simp only [Option.some.injEq] at h
        subst h
        simp [updateFirst, hp]
      · rw [List.find?_cons_of_neg _ (by simpa using hp)] at h
        simp [updateFirst, hp, ih a h]

theorem mapIds_updateFirst (p : α → Bool) (f : α → α) (g : α → β)
    (h : ∀ a, p a = true → g (f a) = g a) :
    ∀ l : List α, (updateFirst p f l).map g = l.map g := by
  intro l
  induction l with
  | nil => rfl
  | cons x xs ih =>
      by_cases hp : p x
      · simp [updateFirst, hp, h x hp]
      · simp [updateFirst, hp, ih]

/-- C4: with the expiry stamp set to a past instant, every read of each of
the four collections wipes all four collections and the stamp and returns
an empty list, a following `exportAll` shows all four collections empty,
and a store without an expiry stamp is never treated as expired. -/
theorem expired_reads_wipe_all_collections (env : Env) (st : LocalStore) (e : Nat)
    (hr : env.failRead = false) (hw : env.failWrite = false)
    (hexp : st.expiry = some e) (hpast : e < env.now) :
    LocalStorageService.getExpenses env st = ([], LocalStore.empty) ∧
    LocalStorageService.getGoalTemplates env st = ([], LocalStore.empty) ∧
    LocalStorageService.getDailyCompletions env st = ([], LocalStore.empty) ∧
    LocalStorageService.getWeeklyReports env st = ([], LocalStore.empty) ∧
    (LocalStorageService.exportAllData env (LocalStorageService.getExpenses env st).2).1 =
      ⟨[], [], [], [], none⟩ ∧
    (∀ st2 : LocalStore, st2.expiry = none →
      LocalStorageService.isDataExpired env st2 = false ∧
      LocalStorageService.getExpenses env st2 = (st2.expenses.getD [], st2)) := by
  have hexpired : LocalStorageService.isDataExpired env st = true := by
    simp [LocalStorageService.isDataExpired, hr, hexp, hpast]
  have hclear : LocalStorageService.clearAllData env st = LocalStore.empty := by
    simp [LocalStorageService.clearAllData, hw]
  have hemptyexp : LocalStore.empty.expiry = none := rfl
  have hnotexp : LocalStorageService.isDataExpired env LocalStore.empty = false := by
    simp [LocalStorageService.isDataExpired, hr, hemptyexp]
  refine ⟨?_, ?_, ?_, ?_, ?_, ?_⟩
  · simp [LocalStorageService.getExpenses, hexpired, hclear]
  · simp [LocalStorageService.getGoalTemplates, hexpired, hclear]
  · simp [LocalStorageService.getDailyCompletions, hexpired, hclear]
  · simp [LocalStorageService.getWeeklyReports, hexpired, hclear]
  · have h1 : LocalStorageService.getExpenses env st = ([], LocalStore.empty) := by
      simp [LocalStorageService.getExpenses, hexpired, hclear]
    rw [h1]
    simp [LocalStorageService.exportAllData, LocalStorageService.getExpenses,
      LocalStorageService.getGoalTemplates, LocalStorageService.getDailyCompletions,
      LocalStorageService.getWeeklyReports, LocalStorageService.getExpiryInfo,
      LocalStorageService.isDataExpired, LocalStore.empty, hr]
  · intro st2 h2
    constructor
    · simp [LocalStorageService.isDataExpired, hr, h2]
    · simp [LocalStorageService.getExpenses, LocalStorageService.isDataExpired, hr, h2]

/-- Witness for `expired_reads_wipe_all_collections` at a concrete expired
store. -/
theorem expired_reads_wipe_all_collections_witness :
    LocalStorageService.getExpenses { now := 100 }
      { expenses := some [{ id := "e1", content := "x", price := 1,
                            date := "2024-01-01", created_at := 1 }],
        expiry := some 50 } = ([], LocalStore.empty) := by
  have h := expired_reads_wipe_all_collections { now := 100 }
    { expenses := some [{ id := "e1", content := "x", price := 1,
                          date := "2024-01-01", created_at := 1 }],
      expiry := some 50 } 50 rfl rfl rfl (by decide)
  exact h.1

/-- C10: deleting a locally stored expense whose id is absent succeeds and
leaves the stored expense collection unchanged, while a local update of
the same missing id throws `Expense not found`. -/
theorem deleteExpense_missing_id_noop (env : Env) (st : LocalStore) (id : String)
    (u : ExpenseUpdate)
    (hr : env.failRead = false) (hw : env.failWrite = false)
    (hne : LocalStorageService.isDataExpired env st = false)
    (hmiss : ∀ e ∈ st.expenses.getD [], e.id ≠ id) :
    (LocalStorageService.deleteExpense env st id).2 = .ok () ∧
    ((LocalStorageService.deleteExpense env st id).1).expenses.getD []
      = st.expenses.getD [] ∧
    (LocalStorageService.updateExpense env st id u).2 = .error "Expense not found" := by
  have hget : LocalStorageService.getExpenses env st = (st.expenses.getD [], st) := by
    simp [LocalStorageService.getExpenses, hne, hr]
  have hfilter : (st.expenses.getD []).filter (fun e => e.id != id)
      = st.expenses.getD [] := by
    rw [List.filter_eq_self]
    intro a ha
    simpa using hmiss a ha
  have hfind : (st.expenses.getD []).find? (fun e => e.id == id) = none := by
    rw [List.find?_eq_none]
    intro a ha
    simpa using hmiss a ha
  refine ⟨?_, ?_, ?_⟩
  · simp [LocalStorageService.deleteExpense, hget]
  · simp only [LocalStorageService.deleteExpense, hget, hfilter,
      LocalStorageService.saveExpenses, hw, Bool.false_eq_true, if_neg,
      not_false_iff, LocalStorageService.stampAfterSave, hr]
    by_cases hs : st.expiry.isSome <;>
      simp [hs, LocalStorageService.setExpiryDate, hw]
  · simp [LocalStorageService.updateExpense, hget, hfind]

/-- Witness for `deleteExpense_missing_id_noop`: deleting the missing id
`"nope"` from a one-element store. -/
theorem deleteExpense_missing_id_noop_witness :
    (LocalStorageService.deleteExpense { now := 10 }
      { expenses := some [{ id := "e1", content := "x", price := 1,
                            date := "2024-01-01", created_at := 1 }] } "nope").2
      = .ok () := by
  have h := deleteExpense_missing_id_noop { now := 10 }
    { expenses := some [{ id := "e1", content := "x", price := 1,
                          date := "2024-01-01", created_at := 1 }] } "nope" {}
    rfl rfl (by decide) (by decide)
  exact h.1

/-- C9 counterexample: with the persistence layer failing, `addExpense`
still returns the new record (success) while nothing was persisted, and a
failing read silently reports an empty collection — refuting the claim
that every local persistence failure is surfaced as a fatal error. -/
theorem addExpense_reports_success_on_persist_failure :
    ((LocalStorageService.addExpense { now := 1000, failWrite := true } {}
        { content := "coffee", price := 3, date := "2024-01-15" }).1.content
      = "coffee") ∧
    ((LocalStorageService.addExpense { now := 1000, failWrite := true } {}
        { content := "coffee", price := 3, date := "2024-01-15" }).2 = {}) ∧
    ((LocalStorageService.getExpenses { now := 1000, failRead := true }
        { expenses := some [{ id := "e1", content := "x", price := 1,
                              date := "2024-01-01", created_at := 1 }] }).1
      = []) := by
  refine ⟨rfl, rfl, rfl⟩

/-- C9 (amended): local persistence failures are swallowed on the expense
path and on every read — `addExpense` reports success with the new record
even though the store is unchanged, and a failing read yields an empty
list — while the goal-data save paths (`saveGoalTemplates` and the
operations built on it) do rethrow the failure. -/
theorem storage_failure_handling (envW envR : Env) (st : LocalStore)
    (e : ExpenseInput) (t : GoalTemplate)
    (hw : envW.failWrite = true) (hr : envR.failRead = true) :
    ((LocalStorageService.addExpense envW st e).2 = st) ∧
    ((LocalStorageService.addExpense envW st e).1.content = e.content) ∧
    (LocalStorageService.getExpenses envR st = ([], st)) ∧
    ((LocalStorageService.saveGoalTemplates envW st []).2
      = .error "storage failure") ∧
    ((LocalStorageService.addGoalTemplate envW st t).2
      = .error "storage failure") := by
  have hget2 : (LocalStorageService.getExpenses envW st).2 = st := by
    simp only [LocalStorageService.getExpenses]
    split
    · simp [LocalStorageService.clearAllData, hw]
    · split <;> rfl
  have hgetT2 : (LocalStorageService.getGoalTemplates envW st).2 = st := by
    simp only [LocalStorageService.getGoalTemplates]
    split
    · simp [LocalStorageService.clearAllData, hw]
    · split <;> rfl
  refine ⟨?_, ?_, ?_, ?_, ?_⟩
  · simp [LocalStorageService.addExpense, LocalStorageService.saveExpenses, hw, hget2]
  · simp [LocalStorageService.addExpense]
  · have : LocalStorageService.isDataExpired envR st = false := by
      simp [LocalStorageService.isDataExpired, hr]
    simp [LocalStorageService.getExpenses, this, hr]
  · simp [LocalStorageService.saveGoalTemplates, hw]
  · simp [LocalStorageService.addGoalTemplate,
      LocalStorageService.saveGoalTemplates, hw]

/-- Witness for `storage_failure_handling` at concrete faulty
environments. -/
theorem storage_failure_handling_witness :
    ((LocalStorageService.addExpense { now := 7, failWrite := true } {}
        { content := "tea", price := 2, date := "2024-02-02" }).2 = {}) ∧
    (LocalStorageService.getExpenses { now := 7, failRead := true } {} = ([], {})) := by
  have h := storage_failure_handling { now := 7, failWrite := true }
    { now := 7, failRead := true } {}
    { content := "tea", price := 2, date := "2024-02-02" }
    { id := "t", user_id := "u", title := "g", day_of_week := 1,
      order_index := 0, is_active := true, created_at := 0, updated_at := 0 }
    rfl rfl
  exact ⟨h.1, h.2.2.1⟩

/-- C5 counterexample: signing out leaves a Local Store holding guest data
completely untouched, refuting the claim that sign-out triggers the
`clearAll` wipe. -/
theorem signOut_does_not_clear_local_data :
    (UseAuth.signOut { now := 5000 } false
        { user := some { id := "u1", isGuest := false } }
        { expenses := some [{ id := "e1", content := "x", price := 1,
                              date := "2024-01-01", created_at := 1 }],
          expiry := some 999999 }).2
      = { expenses := some [{ id := "e1", content := "x", price := 1,
                              date := "2024-01-01", created_at := 1 }],
          expiry := some 999999 } := by
  rfl

/-- C5 (amended): sign-in and sign-up each clear all four local
collections and the expiry stamp before any authenticated data can be
loaded — every subsequent read of the four collections returns an empty
list — whereas sign-out never touches the Local Store; it only switches
the in-memory identity to a fresh guest. -/
theorem signIn_signUp_clear_local_data (env : Env) (u : User)
    (st : AuthState) (loc : LocalStore) (hw : env.failWrite = false) :
    ((UseAuth.signIn env true (.ok u) st loc).1.2 = LocalStore.empty) ∧
    ((UseAuth.signIn env true (.ok u) st loc).1.1.user = some u) ∧
    (∀ env2 : Env,
      (LocalStorageService.getExpenses env2
        ((UseAuth.signIn env true (.ok u) st loc).1.2)).1 = [] ∧
      (LocalStorageService.getGoalTemplates env2
        ((UseAuth.signIn env true (.ok u) st loc).1.2)).1 = [] ∧
      (LocalStorageService.getDailyCompletions env2
        ((UseAuth.signIn env true (.ok u) st loc).1.2)).1 = [] ∧
      (LocalStorageService.getWeeklyReports env2
        ((UseAuth.signIn env true (.ok u) st loc).1.2)).1 = []) ∧
    ((UseAuth.signUp env true (.ok u) st loc).1.2 = LocalStore.empty) ∧
    (∀ (fails : Bool) (st2 : AuthState) (loc2 : LocalStore),
      (UseAuth.signOut env fails st2 loc2).2 = loc2) := by
  have hclear : (UseAuth.signIn env true (.ok u) st loc).1.2 = LocalStore.empty := by
    simp [UseAuth.signIn, LocalStorageService.clearAllData, hw]
  refine ⟨hclear, ?_, ?_, ?_, ?_⟩
  · simp [UseAuth.signIn]
  · intro env2
    rw [hclear]
    have he : LocalStorageService.isDataExpired env2 LocalStore.empty = false := by
      simp [LocalStorageService.isDataExpired, LocalStore.empty]
    refine ⟨?_, ?_, ?_, ?_⟩ <;>
      · simp only [LocalStorageService.getExpenses, LocalStorageService.getGoalTemplates,
          LocalStorageService.getDailyCompletions, LocalStorageService.getWeeklyReports,
          he, Bool.false_eq_true, if_false]
        by_cases h2 : env2.failRead = true <;> simp [h2, LocalStore.empty]
  · simp [UseAuth.signUp, LocalStorageService.clearAllData, hw]
  · intro fails st2 loc2
    simp only [UseAuth.signOut]
    split <;> rfl

/-- Witness for `signIn_signUp_clear_local_data`: signing in over a store
holding guest data wipes it. -/
theorem signIn_signUp_clear_local_data_witness :
    (UseAuth.signIn { now := 9 } true
      (.ok { id := "u1", isGuest := false }) {}
      { expenses := some [{ id := "e1", content := "x", price := 1,
                            date := "2024-01-01", created_at := 1 }] }).1.2
      = LocalStore.empty := by
  have h := signIn_signUp_clear_local_data { now := 9 }
    { id := "u1", isGuest := false } {}
    { expenses := some [{ id := "e1", content := "x", price := 1,
                          date := "2024-01-01", created_at := 1 }] } rfl
  exact h.1

/-- C8 counterexample: a guest-mode `update(expense, "e1", {price := -5})`
succeeds, changes the in-memory collection to hold the negative price, and
raises no error — even though `validateExpense` classifies the record as
invalid — refuting the claim that such an update surfaces a
ValidationError and leaves the collection unchanged. -/
theorem updateExpense_negative_price_not_rejected :
    ((UseExpenses.updateExpense { now := 2000 }
        (some { id := "guest_1", isGuest := true })
        { expenses := [{ id := "e1", content := "lunch", price := 10,
                         date := "2024-01-15", created_at := 1000 }] }
        { expenses := some [{ id := "e1", content := "lunch", price := 10,
                              date := "2024-01-15", created_at := 1000 }] }
        [] "e1" { price := some (-5) }).2
      = .ok { id := "e1", content := "lunch", price := -5, date := "2024-01-15",
              created_at := 1000, updated_at := some 2000 }) ∧
    ((UseExpenses.updateExpense { now := 2000 }
        (some { id := "guest_1", isGuest := true })
        { expenses := [{ id := "e1", content := "lunch", price := 10,
                         date := "2024-01-15", created_at := 1000 }] }
        { expenses := some [{ id := "e1", content := "lunch", price := 10,
                              date := "2024-01-15", created_at := 1000 }] }
        [] "e1" { price := some (-5) }).1.1.expenses
      = [{ id := "e1", content := "lunch", price := -5, date := "2024-01-15",
           created_at := 1000, updated_at := some 2000 }]) ∧
    ((UseExpenses.updateExpense { now := 2000 }
        (some { id := "guest_1", isGuest := true })
        { expenses := [{ id := "e1", content := "lunch", price := 10,
                         date := "2024-01-15", created_at := 1000 }] }
        { expenses := some [{ id := "e1", content := "lunch", price := 10,
                              date := "2024-01-15", created_at := 1000 }] }
        [] "e1" { price := some (-5) }).1.1.error = none) ∧
    (validateExpense { content := some "lunch", price := some (-5),
                       date := some "2024-01-15" }).isValid = false := by
  refine ⟨rfl, rfl, rfl, by decide⟩

/-- C8 (amended): the Engine's `updateExpense` performs no input
validation — in guest mode an update whose merged record `validateExpense`
would reject (e.g. a negative price) is applied and reported as success,
with the merged record returned; the optimistic change is reverted (by
reloading the stored collection) and an error surfaced only when the
storage layer itself throws, i.e. when the target id is absent. -/
theorem updateExpense_skips_validation (env : Env) (u : User) (st : HookState)
    (loc : LocalStore) (id : String) (updates : ExpenseUpdate) (e : Expense)
    (hg : u.isGuest = true) (hr : env.failRead = false) (hw : env.failWrite = false)
    (hne : LocalStorageService.isDataExpired env loc = false)
    (hfind : (loc.expenses.getD []).find? (fun x => x.id == id) = some e) :
    ((UseExpenses.updateExpense env (some u) st loc [] id updates).2
      = .ok { mergeExpense e updates with updated_at := some env.now }) ∧
    (((UseExpenses.updateExpense env (some u) st loc [] id updates).1.1).error
      = none) ∧
    (∀ (st2 : HookState) (loc2 : LocalStore),
      (loc2.expenses.getD []).find? (fun x => x.id == id) = none →
      LocalStorageService.isDataExpired env loc2 = false →
      (UseExpenses.updateExpense env (some u) st2 loc2 [] id updates).2
        = .error "Expense not found" ∧
      ((UseExpenses.updateExpense env (some u) st2 loc2 [] id updates).1.1).expenses
        = loc2.expenses.getD []) := by
  have hauth : isAuthUser (some u) = false := by simp [isAuthUser, hg]
  have hget : LocalStorageService.getExpenses env loc = (loc.expenses.getD [], loc) := by
    simp [LocalStorageService.getExpenses, hne, hr]
  have hupd : LocalStorageService.updateExpense env loc id updates
      = (LocalStorageService.saveExpenses env loc
          (updateFirst (fun x => x.id == id)
            (fun _ => { mergeExpense e updates with updated_at := some env.now })
            (loc.expenses.getD [])),
         .ok { mergeExpense e updates with updated_at := some env.now }) := by
    simp [LocalStorageService.updateExpense, hget, hfind]
  refine ⟨?_, ?_, ?_⟩
  · simp [UseExpenses.updateExpense, hauth, hupd]
  · simp [UseExpenses.updateExpense, hauth, hupd]
  · intro st2 loc2 hfind2 hne2
    have hget2 : LocalStorageService.getExpenses env loc2
        = (loc2.expenses.getD [], loc2) := by
      simp [LocalStorageService.getExpenses, hne2, hr]
    have hupd2 : LocalStorageService.updateExpense env loc2 id updates
        = (loc2, .error "Expense not found") := by
      simp [LocalStorageService.updateExpense, hget2, hfind2]
    constructor
    · simp [UseExpenses.updateExpense, hauth, hupd2]
    · simp [UseExpenses.updateExpense, hauth, hupd2,
        UseExpenses.loadExpenses, hget2]

/-- Witness for `updateExpense_skips_validation`: the concrete negative
price update. -/
theorem updateExpense_skips_validation_witness :
    (UseExpenses.updateExpense { now := 2000 }
        (some { id := "guest_1", isGuest := true })
        { expenses := [{ id := "e1", content := "lunch", price := 10,
                         date := "2024-01-15", created_at := 1000 }] }
        { expenses := some [{ id := "e1", content := "lunch", price := 10,
                              date := "2024-01-15", created_at := 1000 }] }
        [] "e1" { price := some (-5) }).1.1.error = none := by
  have h := updateExpense_skips_validation { now := 2000 }
    { id := "guest_1", isGuest := true }
    { expenses := [{ id := "e1", content := "lunch", price := 10,
                     date := "2024-01-15", created_at := 1000 }] }
    { expenses := some [{ id := "e1", content := "lunch", price := 10,
                          date := "2024-01-15", created_at := 1000 }] }
    "e1" { price := some (-5) }
    { id := "e1", content := "lunch", price := 10, date := "2024-01-15",
      created_at := 1000 }
    rfl rfl rfl (by decide) (by decide)
  exact h.2.1

theorem find?_append_none (p : α → Bool) (l₁ l₂ : List α)
    (h : l₁.find? p = none) : (l₁ ++ l₂).find? p = l₂.find? p := by
  induction l₁ with
  | nil => rfl
  | cons x xs ih =>
      by_cases hp : p x
      · rw [List.find?_cons_of_pos _ (by simpa using hp)] at h
        exact absurd h (by simp)
      · rw [List.find?_cons_of_neg _ (by simpa using hp)] at h
        rw [List.cons_append, List.find?_cons_of_neg _ (by simpa using hp)]
        exact ih h

theorem saveDailyCompletions_ok (env : Env) (st : LocalStore)
    (cs : List DailyGoalCompletion)
    (hr : env.failRead = false) (hw : env.failWrite = false) :
    (LocalStorageService.saveDailyCompletions env st cs).2 = .ok () ∧
    (LocalStorageService.saveDailyCompletions env st cs).1.completions = some cs ∧
    (LocalStorageService.saveDailyCompletions env st cs).1.expiry.isSome = true ∧
    (LocalStorageService.isDataExpired env st = false →
      LocalStorageService.isDataExpired env
        (LocalStorageService.saveDailyCompletions env st cs).1 = false) := by
  by_cases hs : st.expiry.isSome
  · obtain ⟨e0, he0⟩ := Option.isSome_iff_exists.mp hs
    refine ⟨?_, ?_, ?_, ?_⟩ <;>
      simp [LocalStorageService.saveDailyCompletions,
        LocalStorageService.stampAfterSave, LocalStorageService.isDataExpired,
        hr, hw, he0]
  · have he0 : st.expiry = none := Option.not_isSome_iff_eq_none.mp hs
    refine ⟨?_, ?_, ?_, ?_⟩ <;>
      simp [LocalStorageService.saveDailyCompletions,
        LocalStorageService.stampAfterSave, LocalStorageService.setExpiryDate,
        LocalStorageService.isDataExpired, hr, hw, he0]

theorem updateGoalCompletion_upsert_local (env : Env) (st : LocalStore)
    (c : CompletionInput)
    (hr : env.failRead = false) (hw : env.failWrite = false)
    (hne : LocalStorageService.isDataExpired env st = false)
    (hinv : ∀ t d, ((st.completions.getD []).countP
        (fun x => x.goal_template_id == t && x.completion_date == d)) ≤ 1) :
    (∀ t d, (((LocalStorageService.updateGoalCompletion env st c).1).completions.getD []).countP
        (fun x => x.goal_template_id == t && x.completion_date == d) ≤ 1) ∧
    ((((LocalStorageService.updateGoalCompletion env st c).1).completions.getD []).countP
        (fun x => x.goal_template_id == c.goal_template_id &&
          x.completion_date == c.completion_date) = 1) ∧
    ((LocalStorageService.updateGoalCompletion env
        ((LocalStorageService.updateGoalCompletion env st c).1) c).1.completions
      = ((LocalStorageService.updateGoalCompletion env st c).1).completions) ∧
    ((LocalStorageService.updateGoalCompletion env
        ((LocalStorageService.updateGoalCompletion env st c).1) c).2
      = (LocalStorageService.updateGoalCompletion env st c).2) := by
  have hget : LocalStorageService.getDailyCompletions env st
      = (st.completions.getD [], st) := by
    simp [LocalStorageService.getDailyCompletions, hne, hr]
  set cs := st.completions.getD [] with hcs
  rcases hfind : cs.find? (fun x => x.goal_template_id == c.goal_template_id &&
      x.completion_date == c.completion_date) with _ | old
  · -- no existing record for the pair: a new record is appended
    set created : DailyGoalCompletion :=
      { id := env.freshId
        user_id := c.user_id
        goal_template_id := c.goal_template_id
        completion_date := c.completion_date
        is_completed := c.is_completed
        completed_at := c.completed_at
        created_at := env.now } with hcreated
    rcases hSD : LocalStorageService.saveDailyCompletions env st (cs ++ [created])
      with ⟨st2, res⟩
    have hsave := saveDailyCompletions_ok env st (cs ++ [created]) hr hw
    rw [hSD] at hsave
    obtain ⟨hres, hcomp, hexp, hnexp⟩ := hsave
    simp only at hres hcomp hexp hnexp
    subst hres
    have hrun : LocalStorageService.updateGoalCompletion env st c = (st2, .ok created) := by
      simp only [LocalStorageService.updateGoalCompletion, hget, ← hcs, hfind, hSD]
    have hkc : (created.goal_template_id == c.goal_template_id &&
        created.completion_date == c.completion_date) = true := by
      simp [hcreated]
    have hnone : ∀ a ∈ cs, ¬ (a.goal_template_id == c.goal_template_id &&
        a.completion_date == c.completion_date) = true := by
      intro a ha
      have := List.find?_eq_none.mp hfind a ha
      simpa using this
    have hcount0 : cs.countP (fun x => x.goal_template_id == c.goal_template_id &&
        x.completion_date == c.completion_date) = 0 :=
      List.countP_eq_zero.mpr hnone
    -- second call
    have hne2 := hnexp hne
    have hget2 : LocalStorageService.getDailyCompletions env st2
        = (cs ++ [created], st2) := by
      simp [LocalStorageService.getDailyCompletions, hne2, hr, hcomp]
    have hfind2 : (cs ++ [created]).find?
        (fun x => x.goal_template_id == c.goal_template_id &&
          x.completion_date == c.completion_date) = some created := by
      rw [find?_append_none _ _ _ hfind]
      simp [List.find?, hkc]
    have hupdeq : ({ created with
        user_id := c.user_id
        goal_template_id := c.goal_template_id
        completion_date := c.completion_date
        is_completed := c.is_completed
        completed_at := c.completed_at } : DailyGoalCompletion) = created := rfl
    have hUF : updateFirst
        (fun x => x.goal_template_id == c.goal_template_id &&
          x.completion_date == c.completion_date)
        (fun _ => created) (cs ++ [created]) = cs ++ [created] :=
      updateFirst_self _ _ created hfind2
    rcases hSD2 : LocalStorageService.saveDailyCompletions env st2 (cs ++ [created])
      with ⟨st3, res3⟩
    have hsave2 := saveDailyCompletions_ok env st2 (cs ++ [created]) hr hw
    rw [hSD2] at hsave2
    obtain ⟨hres3, hcomp3, _, _⟩ := hsave2
    simp only at hres3 hcomp3
    subst hres3
    have hrun2 : LocalStorageService.updateGoalCompletion env st2 c = (st3, .ok created) := by
      simp only [LocalStorageService.updateGoalCompletion, hget2, hfind2, hupdeq, hUF, hSD2]
    refine ⟨?_, ?_, ?_, ?_⟩
    · intro t d
      rw [hrun]
      simp only [hcomp, Option.getD_some, List.countP_append]
      by_cases hq : (created.goal_template_id == t && created.completion_date == d) = true
      · have hts : c.goal_template_id = t ∧ c.completion_date = d := by
          have := hq
          simp only [hcreated, Bool.and_eq_true, beq_iff_eq] at this
          exact this
        obtain ⟨ht, hd⟩ := hts
        subst ht; subst hd
        simp [hcount0, List.countP_cons, hkc]
      · have h1 : List.countP (fun x => x.goal_template_id == t && x.completion_date == d)
            [created] = 0 := by
          simp only [List.countP_cons, List.countP_nil]
          simp [hq]
        rw [h1]
        simpa using hinv t d
    · rw [hrun]
      simp only [hcomp, Option.getD_some, List.countP_append, hcount0,
        List.countP_cons, List.countP_nil, hkc]
      simp
    · rw [hrun, hrun2]
      simp only [hcomp3, hcomp]
    · rw [hrun, hrun2]
  · -- an existing record for the pair is updated in place
    set updated : DailyGoalCompletion :=
      { old with
        user_id := c.user_id
        goal_template_id := c.goal_template_id
        completion_date := c.completion_date
        is_completed := c.is_completed
        completed_at := c.completed_at } with hupdated
    set cs1 := updateFirst (fun x => x.goal_template_id == c.goal_template_id &&
        x.completion_date == c.completion_date) (fun _ => updated) cs with hcs1
    rcases hSD : LocalStorageService.saveDailyCompletions env st cs1 with ⟨st2, res⟩
    have hsave := saveDailyCompletions_ok env st cs1 hr hw
    rw [hSD] at hsave
    obtain ⟨hres, hcomp, hexp, hnexp⟩ := hsave
    simp only at hres hcomp hexp hnexp
    subst hres
    have hrun : LocalStorageService.updateGoalCompletion env st c = (st2, .ok updated) := by
      simp only [LocalStorageService.updateGoalCompletion, hget, ← hcs, hfind,
        ← hupdated, ← hcs1, hSD]
    have hku : (updated.goal_template_id == c.goal_template_id &&
        updated.completion_date == c.completion_date) = true := by
      simp [hupdated]
    have hpres : ∀ t d, ∀ a : DailyGoalCompletion,
        (a.goal_template_id == c.goal_template_id &&
          a.completion_date == c.completion_date) = true →
        ((fun x : DailyGoalCompletion => x.goal_template_id == t &&
          x.completion_date == d) updated)
          = ((fun x : DailyGoalCompletion => x.goal_template_id == t &&
            x.completion_date == d) a) := by
      intro t d a ha
      simp only [Bool.and_eq_true, beq_iff_eq] at ha
      simp only [hupdated, ha.1, ha.2]
    have hcounts : ∀ t d, cs1.countP (fun x => x.goal_template_id == t &&
        x.completion_date == d) = cs.countP (fun x => x.goal_template_id == t &&
        x.completion_date == d) := by
      intro t d
      exact countP_updateFirst _ _ _ (hpres t d) cs
    have hmem : old ∈ cs := List.mem_of_find?_eq_some hfind
    have hkold := List.find?_some hfind
    have hpos : 0 < cs.countP (fun x => x.goal_template_id == c.goal_template_id &&
        x.completion_date == c.completion_date) :=
      List.countP_pos_iff.mpr ⟨old, hmem, by simpa using hkold⟩
    have hone : cs.countP (fun x => x.goal_template_id == c.goal_template_id &&
        x.completion_date == c.completion_date) = 1 :=
      le_antisymm (by simpa using hinv c.goal_template_id c.completion_date) hpos
    -- second call
    have hne2 := hnexp hne
    have hget2 : LocalStorageService.getDailyCompletions env st2 = (cs1, st2) := by
      simp [LocalStorageService.getDailyCompletions, hne2, hr, hcomp]
    have hfind2 : cs1.find? (fun x => x.goal_template_id == c.goal_template_id &&
        x.completion_date == c.completion_date) = some updated := by
      rw [hcs1]
      exact find?_updateFirst_self _ updated hku cs (by simp [hfind])
    have hupdeq : ({ updated with
        user_id := c.user_id
        goal_template_id := c.goal_template_id
        completion_date := c.completion_date
        is_completed := c.is_completed
        completed_at := c.completed_at } : DailyGoalCompletion) = updated := rfl
    have hUF : updateFirst
        (fun x => x.goal_template_id == c.goal_template_id &&
          x.completion_date == c.completion_date)
        (fun _ => updated) cs1 = cs1 :=
      updateFirst_self _ _ updated hfind2
    rcases hSD2 : LocalStorageService.saveDailyCompletions env st2 cs1 with ⟨st3, res3⟩
    have hsave2 := saveDailyCompletions_ok env st2 cs1 hr hw
    rw [hSD2] at hsave2
    obtain ⟨hres3, hcomp3, _, _⟩ := hsave2
    simp only at hres3 hcomp3
    subst hres3
    have hrun2 : LocalStorageService.updateGoalCompletion env st2 c = (st3, .ok updated) := by
      simp only [LocalStorageService.updateGoalCompletion, hget2, hfind2, hupdeq, hUF, hSD2]
    refine ⟨?_, ?_, ?_, ?_⟩
    · intro t d
      rw [hrun]
      simp only [hcomp, Option.getD_some, hcounts]
      exact hinv t d
    · rw [hrun]
      simp only [hcomp, Option.getD_some, hcounts, hone]
    · rw [hrun, hrun2]
      simp only [hcomp3, hcomp]
    · rw [hrun, hrun2]


theorem updateGoalCompletion_upsert_remote (env : Env) (u : User)
    (table : List DailyGoalCompletion) (c : CompletionInput)
    (hrf : env.remoteFails = false)
    (hinv : ∀ t d, (table.countP (fun x => x.goal_template_id == t &&
        x.completion_date == d)) ≤ 1) :
    ∃ rec table1,
      SupabaseService.updateGoalCompletion env u table c = .ok (rec, table1) ∧
      (∀ t d, table1.countP (fun x => x.goal_template_id == t &&
          x.completion_date == d) ≤ 1) ∧
      (table1.countP (fun x => x.goal_template_id == c.goal_template_id &&
          x.completion_date == c.completion_date) = 1) ∧
      SupabaseService.updateGoalCompletion env u table1 c = .ok (rec, table1) := by
  rcases hfind : table.find? (fun x => x.goal_template_id == c.goal_template_id &&
      x.completion_date == c.completion_date) with _ | old
  · set created : DailyGoalCompletion :=
      { id := env.remoteId
        user_id := u.id
        goal_template_id := c.goal_template_id
        completion_date := c.completion_date
        is_completed := c.is_completed
        completed_at := if c.is_completed then some env.now else none
        created_at := env.now } with hcreated
    have hkc : (created.goal_template_id == c.goal_template_id &&
        created.completion_date == c.completion_date) = true := by
      simp [hcreated]
    have hcount0 : table.countP (fun x => x.goal_template_id == c.goal_template_id &&
        x.completion_date == c.completion_date) = 0 := by
      refine List.countP_eq_zero.mpr ?_
      intro a ha
      have := List.find?_eq_none.mp hfind a ha
      simpa using this
    have hrun : SupabaseService.updateGoalCompletion env u table c
        = .ok (created, table ++ [created]) := by
      simp only [SupabaseService.updateGoalCompletion, hrf, Bool.false_eq_true,
        if_false, hfind, hcreated]
    have hfind2 : (table ++ [created]).find?
        (fun x => x.goal_template_id == c.goal_template_id &&
          x.completion_date == c.completion_date) = some created := by
      rw [find?_append_none _ _ _ hfind]
      simp [List.find?, hkc]
    have hupdeq : ({ created with
        user_id := u.id
        is_completed := c.is_completed
        completed_at := if c.is_completed then some env.now else none } :
          DailyGoalCompletion) = created := rfl
    have hUF : updateFirst
        (fun x => x.goal_template_id == c.goal_template_id &&
          x.completion_date == c.completion_date)
        (fun _ => created) (table ++ [created]) = table ++ [created] :=
      updateFirst_self _ _ created hfind2
    refine ⟨created, table ++ [created], hrun, ?_, ?_, ?_⟩
    · intro t d
      simp only [List.countP_append]
      by_cases hq : (created.goal_template_id == t && created.completion_date == d) = true
      · have hts : c.goal_template_id = t ∧ c.completion_date = d := by
          have := hq
          simp only [hcreated, Bool.and_eq_true, beq_iff_eq] at this
          exact this
        obtain ⟨ht, hd⟩ := hts
        subst ht; subst hd
        simp [hcount0, List.countP_cons, hkc]
      · have h1 : List.countP (fun x => x.goal_template_id == t && x.completion_date == d)
            [created] = 0 := by
          simp only [List.countP_cons, List.countP_nil]
          simp [hq]
        rw [h1]
        simpa using hinv t d
    · simp only [List.countP_append, hcount0, List.countP_cons, List.countP_nil, hkc]
      simp
    · simp only [SupabaseService.updateGoalCompletion, hrf, Bool.false_eq_true,
        if_false, hfind2, hupdeq, hUF]
  · set updated : DailyGoalCompletion :=
      { old with
        user_id := u.id
        is_completed := c.is_completed
        completed_at := if c.is_completed then some env.now else none } with hupdated
    set table1 := updateFirst (fun x => x.goal_template_id == c.goal_template_id &&
        x.completion_date == c.completion_date) (fun _ => updated) table with htable1
    have hkold := List.find?_some hfind
    have hkoldeq : old.goal_template_id = c.goal_template_id ∧
        old.completion_date = c.completion_date := by
      simpa [Bool.and_eq_true, beq_iff_eq] using hkold
    have hku : (updated.goal_template_id == c.goal_template_id &&
        updated.completion_date == c.completion_date) = true := by
      simp [hupdated, hkoldeq.1, hkoldeq.2]
    have hrun : SupabaseService.updateGoalCompletion env u table c
        = .ok (updated, table1) := by
      simp only [SupabaseService.updateGoalCompletion, hrf, Bool.false_eq_true,
        if_false, hfind, ← hupdated, ← htable1]
    have hpres : ∀ t d, ∀ a : DailyGoalCompletion,
        (a.goal_template_id == c.goal_template_id &&
          a.completion_date == c.completion_date) = true →
        ((fun x : DailyGoalCompletion => x.goal_template_id == t &&
          x.completion_date == d) updated)
          = ((fun x : DailyGoalCompletion => x.goal_template_id == t &&
            x.completion_date == d) a) := by
      intro t d a ha
      simp only [Bool.and_eq_true, beq_iff_eq] at ha
      simp only [hupdated, ha.1, ha.2, hkoldeq.1, hkoldeq.2]
    have hcounts : ∀ t d, table1.countP (fun x => x.goal_template_id == t &&
        x.completion_date == d) = table.countP (fun x => x.goal_template_id == t &&
        x.completion_date == d) := by
      intro t d
      exact countP_updateFirst _ _ _ (hpres t d) table
    have hone : table.countP (fun x => x.goal_template_id == c.goal_template_id &&
        x.completion_date == c.completion_date) = 1 :=
      le_antisymm (by simpa using hinv c.goal_template_id c.completion_date)
        (List.countP_pos_iff.mpr ⟨old, List.mem_of_find?_eq_some hfind,
          by simpa using hkold⟩)
    have hfind2 : table1.find? (fun x => x.goal_template_id == c.goal_template_id &&
        x.completion_date == c.completion_date) = some updated := by
      rw [htable1]
      exact find?_updateFirst_self _ updated hku table (by simp [hfind])
    have hupdeq : ({ updated with
        user_id := u.id
        is_completed := c.is_completed
        completed_at := if c.is_completed then some env.now else none } :
          DailyGoalCompletion) = updated := rfl
    have hUF : updateFirst
        (fun x => x.goal_template_id == c.goal_template_id &&
          x.completion_date == c.completion_date)
        (fun _ => updated) table1 = table1 :=
      updateFirst_self _ _ updated hfind2
    refine ⟨updated, table1, hrun, ?_, ?_, ?_⟩
    · intro t d
      rw [hcounts]
      exact hinv t d
    · rw [hcounts, hone]
    · simp only [SupabaseService.updateGoalCompletion, hrf, Bool.false_eq_true,
        if_false, hfind2, hupdeq, hUF]


/-- C6: both the Local Store and the Remote Store `updateGoalCompletion`
are upserts keyed on `(goal_template_id, completion_date)`: they preserve
the at-most-one-record-per-pair invariant, leave exactly one record for
the written pair, and a second call with the identical input is a no-op
update (the stored collection is unchanged and the same record is
returned) rather than a duplicate insert. -/
theorem updateGoalCompletion_upsert_idempotent (env : Env) (st : LocalStore)
    (c : CompletionInput) (u : User) (table : List DailyGoalCompletion)
    (hr : env.failRead = false) (hw : env.failWrite = false)
    (hrf : env.remoteFails = false)
    (hne : LocalStorageService.isDataExpired env st = false)
    (hinv : ∀ t d, ((st.completions.getD []).countP
        (fun x => x.goal_template_id == t && x.completion_date == d)) ≤ 1)
    (hinvR : ∀ t d, (table.countP (fun x => x.goal_template_id == t &&
        x.completion_date == d)) ≤ 1) :
    ((∀ t d, (((LocalStorageService.updateGoalCompletion env st c).1).completions.getD []).countP
        (fun x => x.goal_template_id == t && x.completion_date == d) ≤ 1) ∧
     ((((LocalStorageService.updateGoalCompletion env st c).1).completions.getD []).countP
        (fun x => x.goal_template_id == c.goal_template_id &&
          x.completion_date == c.completion_date) = 1) ∧
     ((LocalStorageService.updateGoalCompletion env
        ((LocalStorageService.updateGoalCompletion env st c).1) c).1.completions
       = ((LocalStorageService.updateGoalCompletion env st c).1).completions) ∧
     ((LocalStorageService.updateGoalCompletion env
        ((LocalStorageService.updateGoalCompletion env st c).1) c).2
       = (LocalStorageService.updateGoalCompletion env st c).2)) ∧
    (∃ rec table1,
      SupabaseService.updateGoalCompletion env u table c = .ok (rec, table1) ∧
      (∀ t d, table1.countP (fun x => x.goal_template_id == t &&
          x.completion_date == d) ≤ 1) ∧
      (table1.countP (fun x => x.goal_template_id == c.goal_template_id &&
          x.completion_date == c.completion_date) = 1) ∧
      SupabaseService.updateGoalCompletion env u table1 c = .ok (rec, table1)) :=
  ⟨updateGoalCompletion_upsert_local env st c hr hw hne hinv,
   updateGoalCompletion_upsert_remote env u table c hrf hinvR⟩

/-- Witness for `updateGoalCompletion_upsert_idempotent`: upserting a
completion into an empty store leaves exactly one record for its pair. -/
theorem updateGoalCompletion_upsert_idempotent_witness :
    (((LocalStorageService.updateGoalCompletion { now := 5 } {}
        { user_id := "u1", goal_template_id := "g1", completion_date := 19723,
          is_completed := true, completed_at := some 5 }).1).completions.getD []).countP
      (fun x => x.goal_template_id == "g1" && x.completion_date == 19723) = 1 := by
  have h := updateGoalCompletion_upsert_idempotent { now := 5 } {}
    { user_id := "u1", goal_template_id := "g1", completion_date := 19723,
      is_completed := true, completed_at := some 5 }
    { id := "u1", isGuest := false } []
    rfl rfl rfl (by decide) (by intro t d; simp) (by intro t d; simp)
  exact h.1.2.1

/-- C7: for a week starting on a Monday, `calculateGoalStats` counts
exactly one matching day for any weekday 1..7 (`total_days = 1`), counts
at most as many completed days, and sets `completion_rate =
completions / total_days` with the zero guard `calculateCompletionRate n 0
= 0`; concretely, for `day_of_week = 1` and the week of 2024-01-01 (epoch
day 19723) the stats are `total_days = 1` with `completions = 1` and rate
`1` when a completed record for that Monday exists, and `0`/`0` without
one. -/
theorem calculateGoalStats_week_counts (t : GoalTemplate) (weekStart : Nat)
    (completions : List DailyGoalCompletion)
    (hmon : isoWeekday weekStart = 1)
    (hlo : 1 ≤ t.day_of_week) (hhi : t.day_of_week ≤ 7) :
    ((WeeklyReportService.calculateGoalStats t weekStart completions).total_days = 1) ∧
    ((WeeklyReportService.calculateGoalStats t weekStart completions).completions ≤ 1) ∧
    ((WeeklyReportService.calculateGoalStats t weekStart completions).completion_rate
      = ((WeeklyReportService.calculateGoalStats t weekStart completions).completions : JSNum)
        / ((WeeklyReportService.calculateGoalStats t weekStart completions).total_days : JSNum)) ∧
    (∀ n, calculateCompletionRate n 0 = 0) ∧
    ((WeeklyReportService.calculateGoalStats
      { id := "g1", user_id := "u1", title := "Gym", day_of_week := 1,
        order_index := 0, is_active := true, created_at := 0, updated_at := 0 }
      19723
      [{ id := "c1", user_id := "u1", goal_template_id := "g1",
         completion_date := 19723, is_completed := true, completed_at := some 0,
         created_at := 0 }]).completions = 1 ∧
     (WeeklyReportService.calculateGoalStats
      { id := "g1", user_id := "u1", title := "Gym", day_of_week := 1,
        order_index := 0, is_active := true, created_at := 0, updated_at := 0 }
      19723
      [{ id := "c1", user_id := "u1", goal_template_id := "g1",
         completion_date := 19723, is_completed := true, completed_at := some 0,
         created_at := 0 }]).total_days = 1 ∧
     (WeeklyReportService.calculateGoalStats
      { id := "g1", user_id := "u1", title := "Gym", day_of_week := 1,
        order_index := 0, is_active := true, created_at := 0, updated_at := 0 }
      19723
      [{ id := "c1", user_id := "u1", goal_template_id := "g1",
         completion_date := 19723, is_completed := true, completed_at := some 0,
         created_at := 0 }]).completion_rate = 1) ∧
    ((WeeklyReportService.calculateGoalStats
      { id := "g1", user_id := "u1", title := "Gym", day_of_week := 1,
        order_index := 0, is_active := true, created_at := 0, updated_at := 0 }
      19723 []).completions = 0 ∧
     (WeeklyReportService.calculateGoalStats
      { id := "g1", user_id := "u1", title := "Gym", day_of_week := 1,
        order_index := 0, is_active := true, created_at := 0, updated_at := 0 }
      19723 []).completion_rate = 0) := by
  have h4 : weekStart % 7 = 4 := by
    unfold isoWeekday at hmon
    by_cases h0 : ((weekStart + 4) % 7 == 0) = true
    · rw [if_pos h0] at hmon
      omega
    · rw [if_neg h0] at hmon
      simp only [beq_iff_eq] at h0
      omega
  have hiso : ∀ i ∈ List.range 7, isoWeekday (weekStart + i) = i + 1 := by
    intro i hi
    have hi7 : i < 7 := List.mem_range.mp hi
    unfold isoWeekday
    have hmod : (weekStart + i + 4) % 7 = (i + 1) % 7 := by omega
    rw [hmod]
    interval_cases i <;> simp
  have hmatch : ((WeeklyReportService.weekDays weekStart).filter
      (fun d => t.day_of_week == isoWeekday d))
      = ((List.range 7).filter
          (fun i => t.day_of_week == i + 1)).map (fun i => weekStart + i) := by
    unfold WeeklyReportService.weekDays
    rw [List.filter_map]
    congr 1
    apply List.filter_congr
    intro i hi
    simp only [Function.comp_apply, hiso i hi]
  have htotal : (WeeklyReportService.calculateGoalStats t weekStart completions).total_days = 1 := by
    show ((WeeklyReportService.weekDays weekStart).filter
      (fun d => t.day_of_week == isoWeekday d)).length = 1
    rw [hmatch, List.length_map]
    interval_cases h : t.day_of_week <;> decide
  refine ⟨htotal, ?_, ?_, ?_, ?_, ?_⟩
  · calc (WeeklyReportService.calculateGoalStats t weekStart completions).completions
        ≤ (WeeklyReportService.calculateGoalStats t weekStart completions).total_days :=
          List.length_filter_le _ _
      _ = 1 := htotal
  · have hdef : (WeeklyReportService.calculateGoalStats t weekStart completions).completion_rate
        = calculateCompletionRate
            (WeeklyReportService.calculateGoalStats t weekStart completions).completions
            (WeeklyReportService.calculateGoalStats t weekStart completions).total_days := rfl
    rw [hdef, htotal]
    simp [calculateCompletionRate]
  · intro n
    simp [calculateCompletionRate]
  · refine ⟨by decide, by decide, ?_⟩
    have hdef : (WeeklyReportService.calculateGoalStats
        { id := "g1", user_id := "u1", title := "Gym", day_of_week := 1,
          order_index := 0, is_active := true, created_at := 0, updated_at := 0 }
        19723
        [{ id := "c1", user_id := "u1", goal_template_id := "g1",
           completion_date := 19723, is_completed := true, completed_at := some 0,
           created_at := 0 }]).completion_rate
        = calculateCompletionRate
            (WeeklyReportService.calculateGoalStats
              { id := "g1", user_id := "u1", title := "Gym", day_of_week := 1,
                order_index := 0, is_active := true, created_at := 0, updated_at := 0 }
              19723
              [{ id := "c1", user_id := "u1", goal_template_id := "g1",
                 completion_date := 19723, is_completed := true, completed_at := some 0,
                 created_at := 0 }]).completions
            (WeeklyReportService.calculateGoalStats
              { id := "g1", user_id := "u1", title := "Gym", day_of_week := 1,
                order_index := 0, is_active := true, created_at := 0, updated_at := 0 }
              19723
              [{ id := "c1", user_id := "u1", goal_template_id := "g1",
                 completion_date := 19723, is_completed := true, completed_at := some 0,
                 created_at := 0 }]).total_days := rfl
    rw [hdef, show (WeeklyReportService.calculateGoalStats
        { id := "g1", user_id := "u1", title := "Gym", day_of_week := 1,
          order_index := 0, is_active := true, created_at := 0, updated_at := 0 }
        19723
        [{ id := "c1", user_id := "u1", goal_template_id := "g1",
           completion_date := 19723, is_completed := true, completed_at := some 0,
           created_at := 0 }]).completions = 1 by decide,
      show (WeeklyReportService.calculateGoalStats
        { id := "g1", user_id := "u1", title := "Gym", day_of_week := 1,
          order_index := 0, is_active := true, created_at := 0, updated_at := 0 }
        19723
        [{ id := "c1", user_id := "u1", goal_template_id := "g1",
           completion_date := 19723, is_completed := true, completed_at := some 0,
           created_at := 0 }]).total_days = 1 by decide]
    norm_num [calculateCompletionRate]
  · refine ⟨by decide, ?_⟩
    have hdef : (WeeklyReportService.calculateGoalStats
        { id := "g1", user_id := "u1", title := "Gym", day_of_week := 1,
          order_index := 0, is_active := true, created_at := 0, updated_at := 0 }
        19723 []).completion_rate
        = calculateCompletionRate
            (WeeklyReportService.calculateGoalStats
              { id := "g1", user_id := "u1", title := "Gym", day_of_week := 1,
                order_index := 0, is_active := true, created_at := 0, updated_at := 0 }
              19723 []).completions
            (WeeklyReportService.calculateGoalStats
              { id := "g1", user_id := "u1", title := "Gym", day_of_week := 1,
                order_index := 0, is_active := true, created_at := 0, updated_at := 0 }
              19723 []).total_days := rfl
    rw [hdef, show (WeeklyReportService.calculateGoalStats
        { id := "g1", user_id := "u1", title := "Gym", day_of_week := 1,
          order_index := 0, is_active := true, created_at := 0, updated_at := 0 }
        19723 []).completions = 0 by decide,
      show (WeeklyReportService.calculateGoalStats
        { id := "g1", user_id := "u1", title := "Gym", day_of_week := 1,
          order_index := 0, is_active := true, created_at := 0, updated_at := 0 }
        19723 []).total_days = 1 by decide]
    norm_num [calculateCompletionRate]

/-- Witness for `calculateGoalStats_week_counts`: the Monday template over
the week of 2024-01-01 with no completions. -/
theorem calculateGoalStats_week_counts_witness :
    (WeeklyReportService.calculateGoalStats
      { id := "g1", user_id := "u1", title := "Gym", day_of_week := 1,
        order_index := 0, is_active := true, created_at := 0, updated_at := 0 }
      19723 []).total_days = 1 := by
  have h := calculateGoalStats_week_counts
    { id := "g1", user_id := "u1", title := "Gym", day_of_week := 1,
      order_index := 0, is_active := true, created_at := 0, updated_at := 0 }
    19723 [] (by decide) (by decide) (by decide)
  exact h.1

/-! ## Queue-drain lemmas for C3 -/

theorem runQueue_spec (attempt : List Expense → SyncOperation →
    List Expense × Except String Unit) :
    ∀ (q : List SyncOperation) (remote : List Expense),
    (((SyncService.runQueue attempt remote q).2.1).map Prod.fst = q) ∧
    ((SyncService.runQueue attempt remote q).2.2
      = ((SyncService.runQueue attempt remote q).2.1).filterMap (fun ob =>
          if ob.2 then none
          else if 3 ≤ ob.1.retries + 1 then none
          else some { ob.1 with retries := ob.1.retries + 1 })) := by
  intro q
  induction q with
  | nil => intro remote; exact ⟨rfl, rfl⟩
  | cons op rest ih =>
      intro remote
      rcases hat : attempt remote op with ⟨r1, res⟩
      rcases hrq : SyncService.runQueue attempt r1 rest with ⟨rF, outs, surv⟩
      have hih := ih r1
      rw [hrq] at hih
      simp only at hih
      obtain ⟨hih1, hih2⟩ := hih
      cases res with
      | ok v =>
          have hrun : SyncService.runQueue attempt remote (op :: rest)
              = (rF, (op, true) :: outs, surv) := by
            simp only [SyncService.runQueue, hat, hrq]
          rw [hrun]
          constructor
          · simp [hih1]
          · simp only [List.filterMap_cons, if_pos, hih2]
      | error m =>
          by_cases hcap : 3 ≤ op.retries + 1
          · have hrun : SyncService.runQueue attempt remote (op :: rest)
                = (rF, (op, false) :: outs, surv) := by
              simp only [SyncService.runQueue, hat, hrq]
              simp [hcap]
            rw [hrun]
            constructor
            · simp [hih1]
            · simp only [List.filterMap_cons]
              simp only [if_neg (by simp : ¬(false = true)), if_pos hcap, hih2]
          · have hrun : SyncService.runQueue attempt remote (op :: rest)
                = (rF, (op, false) :: outs,
                    { op with retries := op.retries + 1 } :: surv) := by
              simp only [SyncService.runQueue, hat, hrq]
              simp [hcap]
            rw [hrun]
            constructor
            · simp [hih1]
            · simp only [List.filterMap_cons]
              simp only [if_neg (by simp : ¬(false = true)), if_neg hcap, hih2]

theorem processQueue_queue_ids (env : Env) (user : Option User)
    (remote : List Expense) (queue : List SyncOperation) (status : SyncStatus) :
    ∀ x ∈ ((SyncService.processQueue env user remote queue status).1.1).map (·.id),
      x ∈ queue.map (·.id) := by
  intro x hx
  by_cases hq : queue.isEmpty
  · simpa [SyncService.processQueue, hq] using hx
  · by_cases ha : isAuthUser user
    · cases user with
      | none => simp [isAuthUser] at ha
      | some u =>
          rcases hrq : SyncService.runQueue (SyncService.processOperation env u)
            remote queue with ⟨rF, outs, surv⟩
          have hspec := runQueue_spec (SyncService.processOperation env u) queue remote
          rw [hrq] at hspec
          simp only at hspec
          obtain ⟨h1, h2⟩ := hspec
          have hx' : x ∈ surv.map (·.id) := by
            simpa [SyncService.processQueue, hq, ha, hrq] using hx
          rw [h2] at hx'
          simp only [List.mem_map] at hx'
          obtain ⟨o, ho, hox⟩ := hx'
          rw [List.mem_filterMap] at ho
          obtain ⟨ob, hob, hf⟩ := ho
          by_cases hb : ob.2 = true
          · rw [if_pos hb] at hf
            exact absurd hf (by simp)
          · rw [if_neg hb] at hf
            split at hf
            · exact absurd hf (by simp)
            · simp only [Option.some.injEq] at hf
              have hoid : o.id = ob.1.id := by rw [← hf]
              have hmemq : ob.1 ∈ queue := by
                rw [← h1]
                exact List.mem_map_of_mem Prod.fst hob
              rw [List.mem_map]
              exact ⟨ob.1, hmemq, by rw [← hox, hoid]⟩
    · simpa [SyncService.processQueue, hq, ha] using hx

theorem drainPasses_ids (user : Option User) :
    ∀ (ps : List (Env × List Expense)) (q : List SyncOperation) (x : String),
      x ∈ (SyncService.drainPasses user ps q).map (·.id) → x ∈ q.map (·.id) := by
  intro ps
  induction ps with
  | nil => intro q x hx; simpa [SyncService.drainPasses] using hx
  | cons p rest ih =>
      intro q x hx
      simp only [SyncService.drainPasses] at hx
      exact processQueue_queue_ids p.1 user p.2 q {} x (ih _ x hx)

/-- C3: an authenticated drain pass attempts every queued operation in
FIFO order; the surviving queue consists exactly of the failing operations
whose incremented `retries` counter is still below the ceiling of 3 (so an
operation is removed exactly when it succeeds or its counter reaches 3),
every survivor has `retries < 3`, and an operation whose third failure
occurred in this pass never reappears in — hence is never attempted by —
any later drain pass. -/
theorem processQueue_retry_ceiling (env : Env) (u : User) (remote : List Expense)
    (queue : List SyncOperation) (status : SyncStatus) (op : SyncOperation)
    (hauth : u.isGuest = false)
    (hnd : (queue.map (·.id)).Nodup) (hmem : op ∈ queue) :
    (((SyncService.processQueue env (some u) remote queue status).1.2.1).map
        Prod.fst = queue) ∧
    ((SyncService.processQueue env (some u) remote queue status).1.1
      = ((SyncService.processQueue env (some u) remote queue status).1.2.1).filterMap
          (fun ob =>
            if ob.2 then none
            else if 3 ≤ ob.1.retries + 1 then none
            else some { ob.1 with retries := ob.1.retries + 1 })) ∧
    (∀ o ∈ (SyncService.processQueue env (some u) remote queue status).1.1,
      o.retries < 3) ∧
    ((op, false) ∈ (SyncService.processQueue env (some u) remote queue status).1.2.1 →
      3 ≤ op.retries + 1 →
      ∀ ps, op.id ∉ (SyncService.drainPasses (some u) ps
        ((SyncService.processQueue env (some u) remote queue status).1.1)).map
          (·.id)) := by
  have hq : queue.isEmpty = false := by
    cases queue with
    | nil => cases hmem
    | cons a l => rfl
  have ha : isAuthUser (some u) = true := by simp [isAuthUser, hauth]
  rcases hrq : SyncService.runQueue (SyncService.processOperation env u)
    remote queue with ⟨rF, outs, surv⟩
  have hspec := runQueue_spec (SyncService.processOperation env u) queue remote
  rw [hrq] at hspec
  simp only at hspec
  obtain ⟨h1, h2⟩ := hspec
  have hpq : (SyncService.processQueue env (some u) remote queue status).1.1 = surv ∧
      (SyncService.processQueue env (some u) remote queue status).1.2.1 = outs := by
    constructor <;> simp [SyncService.processQueue, hq, ha, hrq]
  obtain ⟨hpq1, hpq2⟩ := hpq
  have hsurvmem : ∀ o ∈ surv, ∃ ob ∈ outs, ob.2 = false ∧
      ¬ 3 ≤ ob.1.retries + 1 ∧ o = { ob.1 with retries := ob.1.retries + 1 } := by
    intro o ho
    rw [h2, List.mem_filterMap] at ho
    obtain ⟨ob, hob, hf⟩ := ho
    by_cases hb : ob.2 = true
    · rw [if_pos hb] at hf
      exact absurd hf (by simp)
    · rw [if_neg hb] at hf
      split at hf
      · exact absurd hf (by simp)
      · simp only [Option.some.injEq] at hf
        exact ⟨ob, hob, by simpa using hb, by assumption, hf.symm⟩
  refine ⟨by rw [hpq2, h1], by rw [hpq1, hpq2, h2], ?_, ?_⟩
  · intro o ho
    rw [hpq1] at ho
    obtain ⟨ob, _, _, hc, heq⟩ := hsurvmem o ho
    have : o.retries = ob.1.retries + 1 := by rw [heq]
    omega
  · intro hopout hcap ps
    rw [hpq1, hpq2] at *
    intro hcontra
    have hid : op.id ∈ surv.map (·.id) := drainPasses_ids (some u) ps surv op.id hcontra
    rw [List.mem_map] at hid
    obtain ⟨o, ho, hoid⟩ := hid
    obtain ⟨ob, hobmem, _, hc, heq⟩ := hsurvmem o ho
    have hobq : ob.1 ∈ queue := by
      rw [← h1]
      exact List.mem_map_of_mem Prod.fst hobmem
    have hideq : ob.1.id = op.id := by
      have : o.id = ob.1.id := by rw [heq]
      rw [← hoid, this]
    have hsame : ob.1 = op :=
      List.inj_on_of_nodup_map hnd hobq hmem hideq
    rw [hsame] at hc
    exact hc hcap

/-- Witness for `processQueue_retry_ceiling`: a single queued create
operation with two prior failures, drained while the network is down. -/
theorem processQueue_retry_ceiling_witness :
    ((SyncService.processQueue { now := 50, remoteFails := true }
      (some { id := "u1", isGuest := false }) []
      [{ id := "op1", type := .create, entity := .expense, dataId := "",
         data := { content := "a", price := 1, date := "2024-01-01" },
         timestamp := 1, retries := 2 }] {}).1.2.1).map Prod.fst
      = [{ id := "op1", type := .create, entity := .expense, dataId := "",
           data := { content := "a", price := 1, date := "2024-01-01" },
           timestamp := 1, retries := 2 }] := by
  have h := processQueue_retry_ceiling { now := 50, remoteFails := true }
    { id := "u1", isGuest := false } []
    [{ id := "op1", type := .create, entity := .expense, dataId := "",
       data := { content := "a", price := 1, date := "2024-01-01" },
       timestamp := 1, retries := 2 }] {}
    { id := "op1", type := .create, entity := .expense, dataId := "",
      data := { content := "a", price := 1, date := "2024-01-01" },
      timestamp := 1, retries := 2 }
    rfl (by simp) (by simp)
  exact h.1

theorem saveExpenses_expenses (env : Env) (st : LocalStore) (xs : List Expense)
    (hr : env.failRead = false) (hw : env.failWrite = false) :
    (LocalStorageService.saveExpenses env st xs).expenses = some xs := by
  by_cases hs : st.expiry.isSome
  · obtain ⟨e0, he0⟩ := Option.isSome_iff_exists.mp hs
    simp [LocalStorageService.saveExpenses, LocalStorageService.stampAfterSave,
      LocalStorageService.setExpiryDate, hr, hw, he0]
  · have he0 : st.expiry = none := Option.not_isSome_iff_eq_none.mp hs
    simp [LocalStorageService.saveExpenses, LocalStorageService.stampAfterSave,
      LocalStorageService.setExpiryDate, hr, hw, he0]

/-- C2: while authenticated, when a single-entity expense mutation fails
remotely, the same mutation is written to the Local Store instead
(append for add, in-place merge for update, removal for delete),
`pending_changes` is incremented by one, the sync error message is set, a
newly added record carries no `synced = true` flag (it reads as unsynced),
the Remote Store is untouched, and the operation still reports success. -/
theorem remote_failure_falls_back_to_local (env : Env) (u : User) (st : HookState)
    (loc : LocalStore) (remote : List Expense) (input : ExpenseInput)
    (id : String) (updates : ExpenseUpdate) (e : Expense)
    (hauth : u.isGuest = false) (hrf : env.remoteFails = true)
    (hr : env.failRead = false) (hw : env.failWrite = false)
    (hne : LocalStorageService.isDataExpired env loc = false)
    (hfind : (loc.expenses.getD []).find? (fun x => x.id == id) = some e) :
    ((UseExpenses.addExpense env (some u) st loc remote input).2
       = .ok { id := env.freshId, content := input.content, price := input.price,
               date := input.date, created_at := env.now }) ∧
    (((UseExpenses.addExpense env (some u) st loc remote input).1.2.1).expenses.getD []
       = loc.expenses.getD [] ++
         [{ id := env.freshId, content := input.content, price := input.price,
            date := input.date, created_at := env.now }]) ∧
    ((UseExpenses.addExpense env (some u) st loc remote input).1.1.syncStatus.pending_changes
       = st.syncStatus.pending_changes + 1) ∧
    ((UseExpenses.addExpense env (some u) st loc remote input).1.1.syncStatus.error
       = some "Failed to sync with server") ∧
    (((UseExpenses.addExpense env (some u) st loc remote input).1.1.expenses.head?).map
        (fun x => x.synced.getD false) = some false) ∧
    ((UseExpenses.addExpense env (some u) st loc remote input).1.2.2 = remote) ∧
    ((UseExpenses.updateExpense env (some u) st loc remote id updates).2
       = .ok { mergeExpense e updates with updated_at := some env.now }) ∧
    (((UseExpenses.updateExpense env (some u) st loc remote id updates).1.2.1).expenses.getD []
       = updateFirst (fun x => x.id == id)
           (fun _ => { mergeExpense e updates with updated_at := some env.now })
           (loc.expenses.getD [])) ∧
    ((UseExpenses.updateExpense env (some u) st loc remote id updates).1.1.syncStatus.pending_changes
       = st.syncStatus.pending_changes + 1) ∧
    ((UseExpenses.updateExpense env (some u) st loc remote id updates).1.1.syncStatus.error
       = some "Failed to sync with server") ∧
    ((UseExpenses.updateExpense env (some u) st loc remote id updates).1.2.2 = remote) ∧
    ((UseExpenses.deleteExpense env (some u) st loc remote id).2 = .ok ()) ∧
    (((UseExpenses.deleteExpense env (some u) st loc remote id).1.2.1).expenses.getD []
       = (loc.expenses.getD []).filter (fun x => x.id != id)) ∧
    ((UseExpenses.deleteExpense env (some u) st loc remote id).1.1.syncStatus.pending_changes
       = st.syncStatus.pending_changes + 1) ∧
    ((UseExpenses.deleteExpense env (some u) st loc remote id).1.1.syncStatus.error
       = some "Failed to sync with server") := by
  have hA : isAuthUser (some u) = true := by simp [isAuthUser, hauth]
  have hget : LocalStorageService.getExpenses env loc = (loc.expenses.getD [], loc) := by
    simp [LocalStorageService.getExpenses, hne, hr]
  have hrem : SupabaseService.addExpense env u remote
      { content := input.content, price := input.price, date := input.date }
      = .error "Network error" := by
    simp [SupabaseService.addExpense, hrf]
  have hremU : SupabaseService.updateExpense env u remote id updates
      = .error "Network error" := by
    simp [SupabaseService.updateExpense, hrf]
  have hremD : SupabaseService.deleteExpense env u remote id
      = .error "Network error" := by
    simp [SupabaseService.deleteExpense, hrf]
  have hsaveA := saveExpenses_expenses env loc
    (loc.expenses.getD [] ++
      [{ id := env.freshId, content := input.content, price := input.price,
         date := input.date, created_at := env.now }]) hr hw
  have hsaveU := saveExpenses_expenses env loc
    (updateFirst (fun x => x.id == id)
      (fun _ => { mergeExpense e updates with updated_at := some env.now })
      (loc.expenses.getD [])) hr hw
  have hsaveD := saveExpenses_expenses env loc
    ((loc.expenses.getD []).filter (fun x => x.id != id)) hr hw
  have hlup : LocalStorageService.updateExpense env loc id updates
      = (LocalStorageService.saveExpenses env loc
          (updateFirst (fun x => x.id == id)
            (fun _ => { mergeExpense e updates with updated_at := some env.now })
            (loc.expenses.getD [])),
         .ok { mergeExpense e updates with updated_at := some env.now }) := by
    simp [LocalStorageService.updateExpense, hget, hfind]
  refine ⟨?_, ?_, ?_, ?_, ?_, ?_, ?_, ?_, ?_, ?_, ?_, ?_, ?_, ?_, ?_⟩ <;>
    simp [UseExpenses.addExpense, UseExpenses.updateExpense,
      UseExpenses.deleteExpense, hA, hrem, hremU, hremD,
      LocalStorageService.addExpense, LocalStorageService.deleteExpense,
      hget, hlup, hsaveA, hsaveU, hsaveD]

/-- Witness for `remote_failure_falls_back_to_local`: adding an expense
while the network is down succeeds and lands in the Local Store. -/
theorem remote_failure_falls_back_to_local_witness :
    (UseExpenses.addExpense { now := 3, freshId := "L1", remoteFails := true }
      (some { id := "u1", isGuest := false }) {}
      { expenses := some [{ id := "e1", content := "x", price := 1,
                            date := "2024-01-01", created_at := 1 }] } []
      { content := "tea", price := 2, date := "2024-02-02" }).2
      = .ok { id := "L1", content := "tea", price := 2, date := "2024-02-02",
              created_at := 3 } := by
  have h := remote_failure_falls_back_to_local
    { now := 3, freshId := "L1", remoteFails := true }
    { id := "u1", isGuest := false } {}
    { expenses := some [{ id := "e1", content := "x", price := 1,
                          date := "2024-01-01", created_at := 1 }] } []
    { content := "tea", price := 2, date := "2024-02-02" } "e1" {}
    { id := "e1", content := "x", price := 1, date := "2024-01-01",
      created_at := 1 }
    rfl rfl rfl rfl (by decide) (by decide)
  exact h.1

/-- C1: for a non-temporary expense present on both sides with differing
domain fields, bulk reconciliation resolves by last-write-wins on
`updated_at` (falling back to `created_at`): afterwards both the Remote
Store and the Local Store hold exactly one record with the conflicted id
whose content, price and date are the strictly-newer side's (server wins
ties), the local copy is flagged synced, and the sync reports success. -/
theorem syncExpenses_last_write_wins (env : Env) (u : User) (le se : Expense)
    (status : SyncStatus)
    (hrf : env.remoteFails = false) (hr : env.failRead = false)
    (hw : env.failWrite = false) (hauth : u.isGuest = false)
    (hid : se.id = le.id) (howner : se.user_id = some u.id)
    (htemp : le.id.startsWith "temp_" = false)
    (hdiff : SyncService.expenseDiffers le se = true)
    (hts : le.updated_at.getD le.created_at ≠ se.updated_at.getD se.created_at) :
    ((SyncService.syncExpenses env (some u) { expenses := some [le] } [se] status).2
      = .ok ()) ∧
    (((SyncService.syncExpenses env (some u) { expenses := some [le] } [se] status).1.2.1).map
        (fun x => (x.content, x.price, x.date))
      = [((if se.updated_at.getD se.created_at < le.updated_at.getD le.created_at
            then le else se).content,
          (if se.updated_at.getD se.created_at < le.updated_at.getD le.created_at
            then le else se).price,
          (if se.updated_at.getD se.created_at < le.updated_at.getD le.created_at
            then le else se).date)]) ∧
    ((((SyncService.syncExpenses env (some u) { expenses := some [le] } [se]
          status).1.1).expenses.getD []).map (fun x => (x.content, x.price, x.date))
      = [((if se.updated_at.getD se.created_at < le.updated_at.getD le.created_at
            then le else se).content,
          (if se.updated_at.getD se.created_at < le.updated_at.getD le.created_at
            then le else se).price,
          (if se.updated_at.getD se.created_at < le.updated_at.getD le.created_at
            then le else se).date)]) ∧
    ((((SyncService.syncExpenses env (some u) { expenses := some [le] } [se]
          status).1.1).expenses.getD []).map (·.id) = [le.id]) ∧
    (((SyncService.syncExpenses env (some u) { expenses := some [le] } [se]
          status).1.2.1).map (·.id) = [le.id]) ∧
    ((((SyncService.syncExpenses env (some u) { expenses := some [le] } [se]
          status).1.1).expenses.getD []).map (fun x => x.synced.getD false)
      = [true]) := by
  have h1 : (se.id == le.id) = true := by simp [hid]
  have h2 : (le.id == se.id) = true := by simp [hid]
  have h3 : (se.user_id == some u.id) = true := by simp [howner]
  have hA : isAuthUser (some u) = true := by simp [isAuthUser, hauth]
  have hne : LocalStorageService.isDataExpired env
      ({ expenses := some [le] } : LocalStore) = false := by
    simp [LocalStorageService.isDataExpired, hr]
  have hget : LocalStorageService.getExpenses env { expenses := some [le] }
      = ([le], { expenses := some [le] }) := by
    simp [LocalStorageService.getExpenses, hne, hr]
  have hgetR : SupabaseService.getExpenses env u [se] = .ok [se] := by
    simp [SupabaseService.getExpenses, hrf, h3]
  have hsaveAny : ∀ (stx : LocalStore) (xs : List Expense),
      (LocalStorageService.saveExpenses env stx xs).expenses = some xs :=
    fun stx xs => saveExpenses_expenses env stx xs hr hw
  by_cases hcmp : se.updated_at.getD se.created_at < le.updated_at.getD le.created_at
  · refine ⟨?_, ?_, ?_, ?_, ?_, ?_⟩ <;>
      simp [SyncService.syncExpenses, hA, hget, hgetR,
        SyncService.resolveExpenseConflicts, h1, h2, h3, htemp, hdiff,
        SupabaseService.resolveExpenseConflict, hcmp,
        SupabaseService.updateExpense, hr, hw, hrf, updateFirst,
        LocalStorageService.updateExpense, hget, hne,
        LocalStorageService.getExpenses, mergeExpense, hsaveAny, hid,
        List.filterMap_cons, List.foldl_cons, List.foldl_nil,
        List.filter_cons, List.any_cons, List.find?_cons]
  · refine ⟨?_, ?_, ?_, ?_, ?_, ?_⟩ <;>
      simp [SyncService.syncExpenses, hA, hget, hgetR,
        SyncService.resolveExpenseConflicts, h1, h2, h3, htemp, hdiff,
        SupabaseService.resolveExpenseConflict, hcmp,
        SupabaseService.updateExpense, hr, hw, hrf, updateFirst,
        LocalStorageService.updateExpense, hget, hne,
        LocalStorageService.getExpenses, mergeExpense, hsaveAny, hid,
        List.filterMap_cons, List.foldl_cons, List.foldl_nil,
        List.filter_cons, List.any_cons, List.find?_cons]

/-- Witness for `syncExpenses_last_write_wins`: the spec's example — local
price 10 updated at 1000, remote price 12 updated at 2000; after
reconciliation both stores hold price 12. -/
theorem syncExpenses_last_write_wins_witness :
    ((((SyncService.syncExpenses { now := 5000 }
        (some { id := "u1", isGuest := false })
        { expenses := some [{ id := "e1", content := "lunch", price := 10,
                              date := "2024-01-15", created_at := 500,
                              updated_at := some 1000 }] }
        [{ id := "e1", content := "lunch", price := 12, date := "2024-01-15",
           created_at := 500, user_id := some "u1", updated_at := some 2000 }]
        {}).1.1).expenses.getD []).map (fun x => x.price) = [12]) ∧
    (((SyncService.syncExpenses { now := 5000 }
        (some { id := "u1", isGuest := false })
        { expenses := some [{ id := "e1", content := "lunch", price := 10,
                              date := "2024-01-15", created_at := 500,
                              updated_at := some 1000 }] }
        [{ id := "e1", content := "lunch", price := 12, date := "2024-01-15",
           created_at := 500, user_id := some "u1", updated_at := some 2000 }]
        {}).1.2.1).map (fun x => x.price) = [12]) := by
  have h := syncExpenses_last_write_wins { now := 5000 }
    { id := "u1", isGuest := false }
    { id := "e1", content := "lunch", price := 10, date := "2024-01-15",
      created_at := 500, updated_at := some 1000 }
    { id := "e1", content := "lunch", price := 12, date := "2024-01-15",
      created_at := 500, user_id := some "u1", updated_at := some 2000 }
    {} rfl rfl rfl rfl rfl rfl rfl (by decide) (by decide)
  constructor
  · have h3 := h.2.2.1
    have := congrArg (List.map (fun p : String × JSNum × String => p.2.1)) h3
    simpa using this
  · have h2 := h.2.1
    have := congrArg (List.map (fun p : String × JSNum × String => p.2.1)) h2
    simpa using this
